import Mathlib

set_option maxRecDepth 100000

/-!
Verification of the ingestion/synchronization core of `ai_convos/cli.py`
(a DuckDB-backed archive for Claude, ChatGPT and Codex conversations).

The Python code is shallowly embedded:
* JSON documents (the payloads all normalizers consume) are modelled by the
  inductive `JValue`; Python `None` is `JValue.null`.
* Fallible Python code (bare `d[k]` indexing, attribute access on non-dicts,
  `str.join` over non-strings) is modelled in the `Except Err` monad, with the
  error string naming the Python exception class.
* `datetime` values are kept opaque (`TS` wraps the raw text / epoch value):
  no claim depends on calendar arithmetic, only on presence and identity.
  Likewise JSON-dumped metadata columns store the dumped `JValue` itself.
* The DuckDB tables are modelled as `Finmap`s keyed by the primary-key column,
  which is exactly the observable content of a keyed SQL table;
  `INSERT OR REPLACE` is `Finmap.insert`.
* File mtimes are modelled as naturals (only their ordering is ever used).
-/

/-- Parsed JSON values, as produced by `json.loads`.  Python `None` is `null`;
numbers are modelled as integers (no claim exercises float behaviour). -/
inductive JValue where
  | null
  | bool (b : Bool)
  | num (n : Int)
  | str (s : String)
  | arr (xs : List JValue)
  | obj (fields : List (String × JValue))

/-- Error monad for Python exceptions (the message names the exception). -/
abbrev Err := String

/-- Python truthiness of a parsed-JSON value. -/
def JValue.truthy : JValue → Bool
  | .null => false
  | .bool b => b
  | .num n => n != 0
  | .str s => s != ""
  | .arr xs => !xs.isEmpty
  | .obj fs => !fs.isEmpty

/-- `d.get(k)` on the field list of a dict: `some` the stored value (which may
itself be JSON `null`), `none` when the key is absent. -/
def dictGet (fs : List (String × JValue)) (k : String) : Option JValue :=
  fs.lookup k

/-- `d.get(k)` with Python's default `None`. -/
def pyGet (fs : List (String × JValue)) (k : String) : JValue :=
  (dictGet fs k).getD .null

/-- `d.get(k, dflt)`. -/
def pyGetD (fs : List (String × JValue)) (k : String) (dflt : JValue) : JValue :=
  (dictGet fs k).getD dflt

/-- Bare `d[k]` indexing: `KeyError` when the key is absent. -/
def pyIndex (fs : List (String × JValue)) (k : String) : Except Err JValue :=
  match dictGet fs k with
  | some v => .ok v
  | none => .error ("KeyError: " ++ k)

/-- `v[k]` with a string key on an arbitrary value: only dicts support it. -/
def pyIndexJ (v : JValue) (k : String) : Except Err JValue :=
  match v with
  | .obj fs => pyIndex fs k
  | _ => .error "TypeError: value is not subscriptable by str"

/-- `v.get(...)`-style attribute access requires a dict receiver. -/
def asObj (v : JValue) : Except Err (List (String × JValue)) :=
  match v with
  | .obj fs => .ok fs
  | _ => .error "AttributeError: get"

/-- `k in v` for a string `k`: key test on dicts, membership on lists,
substring test on strings, `TypeError` otherwise. -/
def pyContains (k : String) (v : JValue) : Except Err Bool :=
  match v with
  | .obj fs => .ok (dictGet fs k).isSome
  | .arr xs => .ok (xs.any fun x => match x with | .str s => s == k | _ => false)
  | .str s => .ok ((s.splitOn k).length != 1)
  | _ => .error "TypeError: argument is not iterable"

/-- Python `a or b` on values. -/
def pyOr (a b : JValue) : JValue := if a.truthy then a else b

/-- Does the JSON value equal the Python string `s` (used for `v == "s"` and
`v in ("s1", "s2")` tests)? -/
def JValue.isStr (v : JValue) (s : String) : Bool :=
  match v with
  | .str t => t == s
  | _ => false

/-- A `"\n".join(...)` element must be a `str`. -/
def jStr (v : JValue) : Except Err String :=
  match v with
  | .str s => .ok s
  | _ => .error "TypeError: sequence item is not str"

/-- `sep.join(parts)`. -/
def joinWith (sep : String) (parts : List String) : String :=
  match parts with
  | [] => ""
  | x :: xs => xs.foldl (fun acc y => acc ++ sep ++ y) x

/-- Python whitespace (the ASCII part of `str.strip`'s default set). -/
def isPyWs (c : Char) : Bool :=
  [32, 9, 10, 13, 11, 12].contains c.toNat

/-- `s.strip()`. -/
def pyStrip (s : String) : String :=
  .mk (((s.data.dropWhile isPyWs).reverse.dropWhile isPyWs).reverse)

/-- `s.lower()` (applied only to the ASCII tool names). -/
def pyLower (s : String) : String := .mk (s.data.map Char.toLower)

/-- A `tool_use` / `tool_result` entry of `extract_content`'s `tools` list.
`use` mirrors the dict with keys name/input/id, `result` the dict with keys
id/output (the key sets differ, which downstream `t.get` calls rely on). -/
inductive ToolEntry where
  | use (name input id : JValue)
  | result (id output : JValue)

/-- An attachment descriptor collected by `extract_content`. -/
structure AttachEntry where
  filename : JValue
  mime_type : JValue
  size : JValue
  url : JValue

/-- The `{text, thinking, tools, attachments}` record `extract_content`
returns. -/
structure Extracted where
  text : String
  thinking : Option String
  tools : List ToolEntry
  attachments : List AttachEntry

/-- Is the block's `type` in `("text", None)` (absent or JSON null both read
back as Python `None`)? -/
def typeIsTextOrNone (fs : List (String × JValue)) : Bool :=
  match dictGet fs "type" with
  | none => true
  | some .null => true
  | some (.str s) => s == "text"
  | some _ => false

/-- Is the block an image/file attachment
(`b.get("type") in ("image_asset_pointer", "file") or b.get("content_type") in (...)`)? -/
def isAttachBlock (fs : List (String × JValue)) : Bool :=
  (pyGet fs "type").isStr "image_asset_pointer" || (pyGet fs "type").isStr "file" ||
  (pyGet fs "content_type").isStr "image_asset_pointer" || (pyGet fs "content_type").isStr "file"

/-- `extract_content(content)` from cli.py:118-132.  Exceptions surface in
`Except` in the same order Python raises them: the `text` join first, then the
`thinking` join, then the `tool_use` comprehension (whose bare `b["name"]`
raises `KeyError` on a nameless `tool_use` block). -/
def extract_content (content : JValue) : Except Err Extracted :=
  match content with
  | .str s => .ok ⟨s, none, [], []⟩
  | .arr items => do
      let blocks := items.filterMap fun b => match b with | .obj fs => some fs | _ => none
      let pieces ← blocks.mapM fun b =>
        if typeIsTextOrNone b then
          jStr (pyOr (pyGetD b "text" (.str "")) (pyGetD b "thinking" (.str "")))
        else pure ""
      let joined := pyStrip (joinWith "\n" pieces)
      let text := if joined != "" then joined else
        pyStrip (joinWith "\n" (items.filterMap fun b => match b with | .str s => some s | _ => none))
      let thinkPieces ← (blocks.filter fun b =>
          (pyGet b "type").isStr "thinking" && (pyGet b "thinking").truthy).mapM fun b => do
        jStr (← pyIndex b "thinking")
      let thinkJoined := pyStrip (joinWith "\n" thinkPieces)
      let thinking := if thinkJoined != "" then some thinkJoined else none
      let uses ← (blocks.filter fun b => (pyGet b "type").isStr "tool_use").mapM fun b => do
        let n ← pyIndex b "name"
        pure (ToolEntry.use n (pyGetD b "input" (.obj [])) (pyGet b "id"))
      let results := (blocks.filter fun b => (pyGet b "type").isStr "tool_result").map fun b =>
        ToolEntry.result (pyGet b "tool_use_id") (pyGetD b "content" (.str ""))
      let attachs := (blocks.filter isAttachBlock).map fun b =>
        AttachEntry.mk (pyGetD b "name" (pyGet b "file_name")) (pyGetD b "content_type" (pyGet b "file_type"))
          (pyGetD b "size" (pyGet b "file_size")) (pyGetD b "asset_pointer" (pyGet b "url"))
      pure ⟨text, thinking, uses ++ results, attachs⟩
  | _ => .ok ⟨"", none, [], []⟩

/-! ## Identity scheme: SHA-256 and `gen_id` (cli.py:111) -/

/-- Truncate to a 32-bit word. -/
def w32 (x : Nat) : Nat := x % 4294967296

/-- 32-bit rotate right (input assumed `< 2^32`). -/
def rotr (n x : Nat) : Nat := w32 ((x >>> n) ||| (x <<< (32 - n)))

def shaCh (e f g : Nat) : Nat := (e &&& f) ^^^ ((e ^^^ 4294967295) &&& g)

def shaMaj (a b c : Nat) : Nat := (a &&& b) ^^^ (a &&& c) ^^^ (b &&& c)

def bigSigma0 (x : Nat) : Nat := rotr 2 x ^^^ rotr 13 x ^^^ rotr 22 x

def bigSigma1 (x : Nat) : Nat := rotr 6 x ^^^ rotr 11 x ^^^ rotr 25 x

def smallSigma0 (x : Nat) : Nat := rotr 7 x ^^^ rotr 18 x ^^^ (x >>> 3)

def smallSigma1 (x : Nat) : Nat := rotr 17 x ^^^ rotr 19 x ^^^ (x >>> 10)

/-- The SHA-256 round constants (decimal form of the FIPS 180 words). -/
def shaK : List Nat :=
  [1116352408, 1899447441, 3049323471, 3921009573, 961987163, 1508970993,
   2453635748, 2870763221, 3624381080, 310598401, 607225278, 1426881987,
   1925078388, 2162078206, 2614888103, 3248222580, 3835390401, 4022224774,
   264347078, 604807628, 770255983, 1249150122, 1555081692, 1996064986,
   2554220882, 2821834349, 2952996808, 3210313671, 3336571891, 3584528711,
   113926993, 338241895, 666307205, 773529912, 1294757372, 1396182291,
   1695183700, 1986661051, 2177026350, 2456956037, 2730485921, 2820302411,
   3259730800, 3345764771, 3516065817, 3600352804, 4094571909, 275423344,
   430227734, 506948616, 659060556, 883997877, 958139571, 1322822218,
   1537002063, 1747873779, 1955562222, 2024104815, 2227730452, 2361852424,
   2428436474, 2756734187, 3204031479, 3329325298]

/-- The SHA-256 working state (eight 32-bit words). -/
structure ShaState where
  a : Nat
  b : Nat
  c : Nat
  d : Nat
  e : Nat
  f : Nat
  g : Nat
  h : Nat

/-- The SHA-256 initial hash value. -/
def shaH0 : ShaState :=
  ⟨1779033703, 3144134277, 1013904242, 2773480762, 1359893119, 2600822924, 528734635, 1541459225⟩

/-- Extend a 16-word block to the 64-word message schedule. -/
def shaSchedule (block16 : List Nat) : List Nat :=
  (List.range 48).foldl (fun acc _ =>
    acc ++ [w32 (smallSigma1 (acc.getD (acc.length - 2) 0) + acc.getD (acc.length - 7) 0 +
                 smallSigma0 (acc.getD (acc.length - 15) 0) + acc.getD (acc.length - 16) 0)]) block16

/-- One SHA-256 compression round. -/
def shaRound (s : ShaState) (kw : Nat × Nat) : ShaState :=
  let t1 := w32 (s.h + bigSigma1 s.e + shaCh s.e s.f s.g + kw.1 + kw.2)
  let t2 := w32 (bigSigma0 s.a + shaMaj s.a s.b s.c)
  ⟨w32 (t1 + t2), s.a, s.b, s.c, w32 (s.d + t1), s.e, s.f, s.g⟩

/-- Compress one 16-word block into the running state. -/
def shaCompress (st : ShaState) (block16 : List Nat) : ShaState :=
  let ws := shaSchedule block16
  let r := (shaK.zip ws).foldl shaRound st
  ⟨w32 (st.a + r.a), w32 (st.b + r.b), w32 (st.c + r.c), w32 (st.d + r.d),
   w32 (st.e + r.e), w32 (st.f + r.f), w32 (st.g + r.g), w32 (st.h + r.h)⟩

/-- SHA-256 padding of a byte string. -/
def shaPad (bytes : List Nat) : List Nat :=
  let L := bytes.length
  let zeros := (56 + 64 - ((L + 1) % 64)) % 64
  let bitLen := 8 * L
  bytes ++ [0x80] ++ List.replicate zeros 0 ++
    [(bitLen >>> 56) % 256, (bitLen >>> 48) % 256, (bitLen >>> 40) % 256, (bitLen >>> 32) % 256,
     (bitLen >>> 24) % 256, (bitLen >>> 16) % 256, (bitLen >>> 8) % 256, bitLen % 256]

/-- Split a byte list into 64-byte chunks (fuel-structural so that the kernel
can evaluate it; the fuel in `chunks64` always suffices). -/
def chunks64Go : Nat → List Nat → List (List Nat)
  | 0, _ => []
  | _ + 1, [] => []
  | f + 1, x :: xs => (x :: xs).take 64 :: chunks64Go f ((x :: xs).drop 64)

/-- Split a byte list into 64-byte chunks. -/
def chunks64 (l : List Nat) : List (List Nat) := chunks64Go (l.length + 1) l

/-- Big-endian 4-byte words of a 64-byte chunk. -/
def toWords (block : List Nat) : List Nat :=
  (List.range 16).map fun i =>
    16777216 * block.getD (4 * i) 0 + 65536 * block.getD (4 * i + 1) 0 +
    256 * block.getD (4 * i + 2) 0 + block.getD (4 * i + 3) 0

/-- SHA-256 of a byte string (the final eight-word state). -/
def sha256 (bytes : List Nat) : ShaState :=
  (chunks64 (shaPad bytes)).foldl (fun st blk => shaCompress st (toWords blk)) shaH0

/-- Lower-case hex digit. -/
def nibChar (n : Nat) : Char :=
  "0123456789abcdef".data.getD n '0'

/-- Eight hex characters of a 32-bit word. -/
def wordHex (w : Nat) : List Char :=
  [nibChar ((w >>> 28) % 16), nibChar ((w >>> 24) % 16), nibChar ((w >>> 20) % 16),
   nibChar ((w >>> 16) % 16), nibChar ((w >>> 12) % 16), nibChar ((w >>> 8) % 16),
   nibChar ((w >>> 4) % 16), nibChar (w % 16)]

/-- `hashlib.sha256(bytes).hexdigest()` as a character list. -/
def sha256HexChars (bytes : List Nat) : List Char :=
  let s := sha256 bytes
  wordHex s.a ++ wordHex s.b ++ wordHex s.c ++ wordHex s.d ++
  wordHex s.e ++ wordHex s.f ++ wordHex s.g ++ wordHex s.h

/-- UTF-8 bytes of one character (Python `str.encode()`). -/
def utf8Char (c : Char) : List Nat :=
  let n := c.toNat
  if n < 128 then [n]
  else if n < 2048 then [192 ||| (n >>> 6), 128 ||| (n &&& 63)]
  else if n < 65536 then [224 ||| (n >>> 12), 128 ||| ((n >>> 6) &&& 63), 128 ||| (n &&& 63)]
  else [240 ||| (n >>> 18), 128 ||| ((n >>> 12) &&& 63), 128 ||| ((n >>> 6) &&& 63), 128 ||| (n &&& 63)]

/-- UTF-8 encoding of a string. -/
def utf8Encode (s : String) : List Nat :=
  (s.data.map utf8Char).flatten

/-- `gen_id(source, oid)` from cli.py:111:
the first 16 hex characters of SHA-256 of `"{source}:{oid}"`. -/
def gen_id (source oid : String) : String :=
  .mk ((sha256HexChars (utf8Encode (source ++ ":" ++ oid))).take 16)

/-! ## Timestamps (cli.py:112-116), canonical rows, and `ParseResult` -/

/-- An opaque parsed timestamp: `iso` wraps the text handed to
`datetime.fromisoformat` (whose grammar is not re-modelled; well-formed
timestamp text is assumed), `epoch` the value handed to
`datetime.fromtimestamp(float(...))`. -/
inductive TS where
  | iso (s : String)
  | epoch (v : JValue)

/-- `ts_from_iso(t)`: `None` on falsy input, otherwise `t.replace(...)` which
raises `AttributeError` on a non-string truthy value. -/
def tsFromIso (v : JValue) : Except Err (Option TS) :=
  if v.truthy then
    match v with
    | .str s => .ok (some (.iso s))
    | _ => .error "AttributeError: replace"
  else .ok none

/-- Does `float(s)` accept the string (the numeric literal forms; `inf`/`nan`
and digit underscores are not modelled)? -/
def isFloatLit (s : String) : Bool :=
  let t0 : List Char := ((s.data.dropWhile isPyWs).reverse.dropWhile isPyWs).reverse
  let t1 : List Char := match t0 with
    | c :: r => if c == '+' || c == '-' then r else t0
    | [] => []
  let ni := (t1.takeWhile Char.isDigit).length
  let r1 : List Char := t1.dropWhile Char.isDigit
  let nf := match r1 with
    | '.' :: r => (r.takeWhile Char.isDigit).length
    | _ => 0
  let r2 : List Char := match r1 with
    | '.' :: r => r.dropWhile Char.isDigit
    | _ => r1
  if ni + nf == 0 then false else
  match r2 with
  | [] => true
  | e :: r3 =>
    if e == 'e' || e == 'E' then
      let r4 : List Char := match r3 with
        | c :: r => if c == '+' || c == '-' then r else r3
        | [] => []
      ((r4.takeWhile Char.isDigit).length != 0) && (r4.dropWhile Char.isDigit).isEmpty
    else false

/-- `ts_from_epoch(t)`: `None` for `None`/`""`, otherwise
`datetime.fromtimestamp(float(t))` with every exception swallowed to `None`. -/
def tsFromEpoch (v : JValue) : Option TS :=
  match v with
  | .null => none
  | .str s => if s == "" then none else if isFloatLit s then some (.epoch v) else none
  | .num _ => some (.epoch v)
  | .bool _ => some (.epoch v)
  | .arr _ => none
  | .obj _ => none

/-- A `conversations` row (init_schema, cli.py:57-59).  JSON-valued columns
hold the `JValue` that Python would store (for `metadata`, the value that was
`json.dumps`-ed). -/
structure ConvRow where
  id : String
  source : String
  title : JValue
  created_at : Option TS
  updated_at : Option TS
  model : JValue
  cwd : JValue
  git_branch : JValue
  project_id : JValue
  metadata : JValue

/-- A `messages` row (cli.py:60-62). -/
structure MsgRow where
  id : String
  conversation_id : String
  role : JValue
  content : String
  thinking : Option String
  created_at : Option TS
  model : JValue
  metadata : JValue

/-- A `tool_calls` row (cli.py:63-65); `input`/`output` hold the value that
was `json.dumps`-ed. -/
structure ToolRow where
  id : String
  message_id : String
  tool_name : JValue
  input : JValue
  output : JValue
  status : String
  duration_ms : JValue
  created_at : Option TS

/-- An `attachments` row (cli.py:66-68). -/
structure AttachRow where
  id : String
  message_id : String
  filename : JValue
  mime_type : JValue
  size : JValue
  path : JValue
  url : JValue
  created_at : Option TS

/-- An `artifacts` row (cli.py:69-71); no current normalizer populates it. -/
structure ArtifactRow where
  id : String
  conversation_id : String
  artifact_type : JValue
  title : JValue
  content : JValue
  language : JValue
  created_at : Option TS
  version : JValue

/-- A `file_edits` row (cli.py:72-74). -/
structure EditRow where
  id : String
  message_id : String
  file_path : JValue
  edit_type : String
  content : JValue
  created_at : Option TS

/-- The universal Normalizer→Merger contract (cli.py:237-240). -/
structure ParseResult where
  convs : List ConvRow := []
  msgs : List MsgRow := []
  tools : List ToolRow := []
  attachs : List AttachRow := []
  artifacts : List ArtifactRow := []
  edits : List EditRow := []

/-! ## Claude Code session normalizer (cli.py:415-459) -/

/-- The path components of a session file that the parser reads
(`str(jsonl)`, `jsonl.parent.name`, `jsonl.stem`). -/
structure JsonlPath where
  full : String
  parentName : String
  stem : String

/-- `[ts_from_iso(e["timestamp"]) for e in events if "timestamp" in e]`. -/
def ccTimestamps : List JValue → Except Err (List (Option TS))
  | [] => .ok []
  | e :: rest => do
      let has ← pyContains "timestamp" e
      if has then do
        let v ← pyIndexJ e "timestamp"
        let t ← tsFromIso v
        let r ← ccTimestamps rest
        pure (t :: r)
      else ccTimestamps rest

/-- `next((e for e in events if e.get("type") == "system"), empty-dict)`. -/
def findSystem : List JValue → Except Err (List (String × JValue))
  | [] => .ok []
  | e :: rest => do
      let fs ← asObj e
      if (pyGet fs "type").isStr "system" then pure fs else findSystem rest

/-- `[(i, e) for i, e in enumerate(events) if "message" in e]` from index `i`. -/
def msgEventsAux (i : Nat) : List JValue → Except Err (List (Nat × JValue))
  | [] => .ok []
  | e :: rest => do
      let has ← pyContains "message" e
      let r ← msgEventsAux (i + 1) rest
      if has then pure ((i, e) :: r) else pure r

/-- The text used by the cli.py:444 filter:
`extract_content(e["message"].get("content", ""))["text"]`. -/
def ccText (e : JValue) : Except Err String := do
  let mv ← pyIndexJ e "message"
  let m ← asObj mv
  let ec ← extract_content (pyGetD m "content" (.str ""))
  pure ec.text

/-- The filter texts of all message events of a session, in file order. -/
def ccSessionTexts (events : List JValue) : Except Err (List String) := do
  let mes ← msgEventsAux 0 events
  mes.mapM fun ie => ccText ie.2

/-- `make_msg(idx, i, e)` (cli.py:424-428). -/
def make_msg (cid : String) (idx : Nat) (e : JValue) : Except Err MsgRow := do
  let mv ← pyIndexJ e "message"
  let m ← asObj mv
  let ec ← extract_content (pyGetD m "content" (pyGetD m "text" (.str "")))
  let efs ← asObj e
  let ty ← pyIndex efs "type"
  let ts ← tsFromIso (pyGet efs "timestamp")
  pure ⟨gen_id "claude-code" (cid ++ ":" ++ toString idx), cid, ty, ec.text, ec.thinking, ts,
        if ty.isStr "assistant" then .str "claude" else .null, .obj []⟩

/-- `t.get("name", t.get("id"))` on a tools entry. -/
def ToolEntry.nameOrId : ToolEntry → JValue
  | .use n _ _ => n
  | .result i _ => i

/-- `t.get("input", empty-dict)`. -/
def ToolEntry.inputD : ToolEntry → JValue
  | .use _ inp _ => inp
  | .result _ _ => .obj []

/-- `json.dumps(t.get("output", "")) if "output" in t else "\x7b\x7d"`
(a `use` entry has no `output` key; the literal equals the dump of an
empty dict). -/
def ToolEntry.outputD : ToolEntry → JValue
  | .use _ _ _ => .obj []
  | .result _ o => o

/-- `"complete" if "output" in t else "pending"`. -/
def ToolEntry.statusD : ToolEntry → String
  | .use _ _ _ => "pending"
  | .result _ _ => "complete"

/-- `make_tools(idx, i, e)` (cli.py:430-435). -/
def make_tools (cid : String) (idx : Nat) (e : JValue) : Except Err (List ToolRow) := do
  let mv ← pyIndexJ e "message"
  let m ← asObj mv
  let c ← extract_content (pyGetD m "content" (.arr []))
  let efs ← asObj e
  let ts ← tsFromIso (pyGet efs "timestamp")
  let mid := gen_id "claude-code" (cid ++ ":" ++ toString idx)
  pure <| c.tools.enum.map fun jt =>
    ⟨gen_id "claude-code" ("tool:" ++ cid ++ ":" ++ toString idx ++ ":" ++ toString jt.1), mid,
     jt.2.nameOrId, jt.2.inputD, jt.2.outputD, jt.2.statusD, .null, ts⟩

/-- `t.get("name")` when it is one of the file-mutating tool names. -/
def editToolName : ToolEntry → Option String
  | .use (.str n) _ _ =>
      if n == "Write" || n == "Edit" || n == "MultiEdit" then some n else none
  | _ => none

/-- The cli.py:440-442 comprehension body over the tools list, carrying the
running `enumerate` index `j`. -/
def ccEditsGo (cid : String) (idx : Nat) (mid : String) (ts : Option TS) (j : Nat) :
    List ToolEntry → Except Err (List EditRow)
  | [] => .ok []
  | t :: rest =>
      match editToolName t with
      | some n => do
          let inpFs ← asObj t.inputD
          let fp := pyGet inpFs "file_path"
          if fp.truthy then do
            let r ← ccEditsGo cid idx mid ts (j + 1) rest
            pure (⟨gen_id "claude-code" ("edit:" ++ cid ++ ":" ++ toString idx ++ ":" ++ toString j),
                   mid, fp, pyLower n,
                   pyOr (pyGet inpFs "content") (pyGetD inpFs "new_string" (.str "")), ts⟩ :: r)
          else ccEditsGo cid idx mid ts (j + 1) rest
      | none => ccEditsGo cid idx mid ts (j + 1) rest

/-- The FileEdit rows projected from one message's tools list. -/
def ccEditsOfTools (cid : String) (idx : Nat) (mid : String) (ts : Option TS)
    (tools : List ToolEntry) : Except Err (List EditRow) :=
  ccEditsGo cid idx mid ts 0 tools

/-- `make_edits(idx, i, e)` (cli.py:437-442). -/
def make_edits (cid : String) (idx : Nat) (e : JValue) : Except Err (List EditRow) := do
  let mv ← pyIndexJ e "message"
  let m ← asObj mv
  let c ← extract_content (pyGetD m "content" (.arr []))
  let efs ← asObj e
  let ts ← tsFromIso (pyGet efs "timestamp")
  let mid := gen_id "claude-code" (cid ++ ":" ++ toString idx)
  ccEditsOfTools cid idx mid ts c.tools

/-- The cli.py:444 message comprehension: filter by `ccText`, build by
`make_msg`, with `idx` counting every message event. -/
def buildMsgs (cid : String) (idx : Nat) : List (Nat × JValue) → Except Err (List MsgRow)
  | [] => .ok []
  | (_, e) :: rest => do
      let t ← ccText e
      if t != "" then do
        let m ← make_msg cid idx e
        let r ← buildMsgs cid (idx + 1) rest
        pure (m :: r)
      else buildMsgs cid (idx + 1) rest

/-- The cli.py:452 tool comprehension over all message events. -/
def buildTools (cid : String) (idx : Nat) : List (Nat × JValue) → Except Err (List ToolRow)
  | [] => .ok []
  | (_, e) :: rest => do
      let ts ← make_tools cid idx e
      let r ← buildTools cid (idx + 1) rest
      pure (ts ++ r)

/-- The cli.py:453 edit comprehension over all message events. -/
def buildEdits (cid : String) (idx : Nat) : List (Nat × JValue) → Except Err (List EditRow)
  | [] => .ok []
  | (_, e) :: rest => do
      let es ← make_edits cid idx e
      let r ← buildEdits cid (idx + 1) rest
      pure (es ++ r)

/-- One parsed Claude Code session (the dict cli.py:446-453 returns). -/
structure CCSession where
  conv : ConvRow
  msgs : List MsgRow
  tools : List ToolRow
  edits : List EditRow

/-- `parse_claude_code_session(jsonl)` (cli.py:415-453): `none` for an empty
event list or a session with no non-empty extracted message text. -/
def parse_claude_code_session (p : JsonlPath) (events : List JValue) :
    Except Err (Option CCSession) :=
  if events.isEmpty then .ok none else do
    let cid := gen_id "claude-code" p.full
    let timestamps ← ccTimestamps events
    let system ← findSystem events
    let mes ← msgEventsAux 0 events
    let msgs ← buildMsgs cid 0 mes
    if msgs.isEmpty then pure none else do
      let tools ← buildTools cid 0 mes
      let edits ← buildEdits cid 0 mes
      let title := (p.parentName.replace "-Users-" "~/").replace "-" "/" ++
        " (" ++ String.mk (p.stem.data.take 8) ++ ")"
      pure (some ⟨⟨cid, "claude-code", .str title, timestamps.head?.join, timestamps.getLast?.join,
                  .str "claude", pyGet system "cwd", pyGet system "gitBranch", .null,
                  .obj [("session_id", .str p.stem)]⟩, msgs, tools, edits⟩)

/-- `parse_claude_code(projects_dir, files)` (cli.py:455-459) over the session
files' parsed event lists. -/
def parse_claude_code (files : List (JsonlPath × List JValue)) : Except Err ParseResult := do
  let sessionsO ← files.mapM fun pe => parse_claude_code_session pe.1 pe.2
  let ss := sessionsO.filterMap id
  pure ⟨ss.map (·.conv), (ss.map (·.msgs)).flatten, (ss.map (·.tools)).flatten, [], [],
        (ss.map (·.edits)).flatten⟩

/-! ## Codex session normalizer (cli.py:461-510)

The two `re.search` patterns of the shell-edit projection,
`(?:cat|echo).*[>].*?([^\s>]+)` and `(?:sed|awk).*?([^\s]+)$`, are embedded as
direct search functions with Python's leftmost-start, greedy/lazy backtracking
semantics (`.` does not match a newline; `$` also matches before a final
newline). -/

/-- First `some` of a list of attempts (backtracking order). -/
def firstSome {α : Type} : List (Option α) → Option α
  | [] => none
  | some x :: _ => some x
  | none :: rest => firstSome rest

/-- A character of the capture group `[^\s>]+`. -/
def isGroupA (c : Char) : Bool := !(isPyWs c) && c != '>'

/-- After the chosen `[>]`: `.*?([^\s>]+)` — lazily skip non-newline
characters to the first group character, then take the greedy group. -/
def afterGt : List Char → Option (List Char)
  | [] => none
  | c :: rest =>
      if isGroupA c then some (c :: rest.takeWhile isGroupA)
      else if c == '\n' then none else afterGt rest

/-- After `cat`/`echo`: `.*[>]` chooses the rightmost `'>'` with no newline
before it (greedy, backtracking leftwards) such that the rest matches. -/
def afterLitA (cs : List Char) : Option (List Char) :=
  let pre := cs.takeWhile (fun c => c != '\n')
  let cands := ((List.range pre.length).filter fun i => pre.getD i ' ' == '>').reverse
  firstSome (cands.map fun i => afterGt (cs.drop (i + 1)))

/-- Match `(?:cat|echo).*[>].*?([^\s>]+)` at the start of `cs`. -/
def matchAAt (cs : List Char) : Option (List Char) :=
  if cs.take 3 = ['c', 'a', 't'] then afterLitA (cs.drop 3)
  else if cs.take 4 = ['e', 'c', 'h', 'o'] then afterLitA (cs.drop 4)
  else none

/-- `re.search(r'(?:cat|echo).*[>].*?([^\s>]+)', cmd)`, returning `group(1)`. -/
def searchRedirect (cs : List Char) : Option (List Char) :=
  match matchAAt cs with
  | some g => some g
  | none => match cs with
    | [] => none
    | _ :: rest => searchRedirect rest

/-- After `sed`/`awk`: `.*?([^\s]+)$` — lazily skip (never across a newline)
to a non-whitespace run whose end is at the end of input or just before a
final newline. -/
def afterLitB : List Char → Option (List Char)
  | [] => none
  | c :: rest =>
      if isPyWs c then (if c == '\n' then none else afterLitB rest)
      else
        let g := c :: rest.takeWhile fun d => !(isPyWs d)
        let rem := rest.drop (g.length - 1)
        if rem.isEmpty || rem == ['\n'] then some g else afterLitB rest

/-- Match `(?:sed|awk).*?([^\s]+)$` at the start of `cs`. -/
def matchBAt (cs : List Char) : Option (List Char) :=
  if cs.take 3 = ['s', 'e', 'd'] then afterLitB (cs.drop 3)
  else if cs.take 3 = ['a', 'w', 'k'] then afterLitB (cs.drop 3)
  else none

/-- `re.search(r'(?:sed|awk).*?([^\s]+)$', cmd)`, returning `group(1)`. -/
def searchSedAwk (cs : List Char) : Option (List Char) :=
  match matchBAt cs with
  | some g => some g
  | none => match cs with
    | [] => none
    | _ :: rest => searchSedAwk rest

/-! A fueled JSON reader for `json.loads` on string-valued `arguments`
(`norm_args`, cli.py:472-473).  Faithful for the JSON `norm_args` ever
receives except float literals, which are not modelled (no claim and no
theorem below touches them). -/

/-- Hexadecimal digit value. -/
def hexDigitVal (c : Char) : Option Nat :=
  if '0' ≤ c && c ≤ '9' then some (c.toNat - 48)
  else if 'a' ≤ c && c ≤ 'f' then some (c.toNat - 87)
  else if 'A' ≤ c && c ≤ 'F' then some (c.toNat - 55)
  else none

/-- JSON insignificant whitespace. -/
def jsonSkipWs (l : List Char) : List Char :=
  l.dropWhile fun c => c == ' ' || c == '\t' || c == '\n' || c == '\r'

/-- The body of a JSON string after the opening quote. -/
def jsonStrChars : Nat → List Char → Except Err (List Char × List Char)
  | 0, _ => .error "ValueError: fuel"
  | _ + 1, [] => .error "ValueError: unterminated string"
  | f + 1, c :: rest =>
      if c == '"' then .ok ([], rest)
      else if c == '\\' then
        match rest with
        | [] => .error "ValueError: bad escape"
        | e :: rest2 =>
          if e == 'u' then
            match rest2 with
            | a :: b :: c2 :: d :: rest3 =>
                match hexDigitVal a, hexDigitVal b, hexDigitVal c2, hexDigitVal d with
                | some va, some vb, some vc, some vd => do
                    let (s, r2) ← jsonStrChars f rest3
                    .ok (Char.ofNat (4096 * va + 256 * vb + 16 * vc + vd) :: s, r2)
                | _, _, _, _ => .error "ValueError: bad unicode escape"
            | _ => .error "ValueError: bad unicode escape"
          else do
            let ch ← if e == '"' then pure '"' else if e == '\\' then pure '\\'
              else if e == '/' then pure '/' else if e == 'n' then pure '\n'
              else if e == 't' then pure '\t' else if e == 'r' then pure '\r'
              else if e == 'b' then pure '\x08' else if e == 'f' then pure '\x0c'
              else Except.error "ValueError: invalid escape"
            let (s, r2) ← jsonStrChars f rest2
            .ok (ch :: s, r2)
      else do
        let (s, r2) ← jsonStrChars f rest
        .ok (c :: s, r2)

mutual

/-- One JSON value (whitespace already significant at call sites). -/
def jsonVal : Nat → List Char → Except Err (JValue × List Char)
  | 0, _ => .error "ValueError: fuel"
  | f + 1, l =>
    match jsonSkipWs l with
    | [] => .error "ValueError: empty"
    | c :: rest =>
      if c == '"' then do
        let (s, r2) ← jsonStrChars (f + 1) rest
        .ok (.str (String.mk s), r2)
      else if c == '[' then
        match jsonSkipWs rest with
        | ']' :: r2 => .ok (.arr [], r2)
        | r2 => do
            let (xs, r3) ← jsonArrItems f r2
            .ok (.arr xs, r3)
      else if c == '{' then
        match jsonSkipWs rest with
        | '}' :: r2 => .ok (.obj [], r2)
        | r2 => do
            let (fs, r3) ← jsonObjItems f r2
            .ok (.obj fs, r3)
      else if c == 't' then
        match rest with
        | 'r' :: 'u' :: 'e' :: r2 => .ok (.bool true, r2)
        | _ => .error "ValueError: bad literal"
      else if c == 'f' then
        match rest with
        | 'a' :: 'l' :: 's' :: 'e' :: r2 => .ok (.bool false, r2)
        | _ => .error "ValueError: bad literal"
      else if c == 'n' then
        match rest with
        | 'u' :: 'l' :: 'l' :: r2 => .ok (.null, r2)
        | _ => .error "ValueError: bad literal"
      else if c == '-' || c.isDigit then
        let (sign, digs0) : Int × List Char := if c == '-' then (-1, rest) else (1, c :: rest)
        let digs := digs0.takeWhile Char.isDigit
        let r2 := digs0.dropWhile Char.isDigit
        if digs.isEmpty then .error "ValueError: bad number"
        else match r2 with
        | '.' :: _ => .error "ValueError: float literal not modelled"
        | 'e' :: _ => .error "ValueError: float literal not modelled"
        | 'E' :: _ => .error "ValueError: float literal not modelled"
        | _ => .ok (.num (sign * Int.ofNat (digs.foldl (fun a d => 10 * a + (d.toNat - 48)) 0)), r2)
      else .error "ValueError: unexpected character"

/-- Comma-separated array items (first item at head). -/
def jsonArrItems (fuel : Nat) (l : List Char) : Except Err (List JValue × List Char) :=
  match fuel with
  | 0 => .error "ValueError: fuel"
  | f + 1 => do
    let (v, r) ← jsonVal f l
    match jsonSkipWs r with
    | ',' :: r2 => do
        let (xs, r3) ← jsonArrItems f r2
        .ok (v :: xs, r3)
    | ']' :: r2 => .ok ([v], r2)
    | _ => .error "ValueError: bad array"

/-- Comma-separated object members (first member at head). -/
def jsonObjItems (fuel : Nat) (l : List Char) : Except Err (List (String × JValue) × List Char) :=
  match fuel with
  | 0 => .error "ValueError: fuel"
  | f + 1 =>
    match jsonSkipWs l with
    | '"' :: r => do
        let (k, r2) ← jsonStrChars (f + 1) r
        match jsonSkipWs r2 with
        | ':' :: r3 => do
            let (v, r4) ← jsonVal f r3
            match jsonSkipWs r4 with
            | ',' :: r5 => do
                let (fs, r6) ← jsonObjItems f r5
                .ok ((String.mk k, v) :: fs, r6)
            | '}' :: r5 => .ok ([(String.mk k, v)], r5)
            | _ => .error "ValueError: bad object"
        | _ => .error "ValueError: expected colon"
    | _ => .error "ValueError: expected key"

end

/-- `json.loads(s)`. -/
def jsonLoads (s : String) : Except Err JValue := do
  let (v, rest) ← jsonVal (4 * s.data.length + 16) s.data
  if (jsonSkipWs rest).isEmpty then .ok v else .error "ValueError: trailing data"

/-- `for b in v` element sequences: lists yield elements, strings their
characters, dicts their keys; other values raise `TypeError`. -/
def pyIterElems : JValue → Except Err (List JValue)
  | .arr xs => .ok xs
  | .str s => .ok (s.data.map fun c => .str (String.mk [c]))
  | .obj fs => .ok (fs.map fun kv => .str kv.1)
  | _ => .error "TypeError: not iterable"

/-- `b.get("type") in ("input_text", "output_text", "text")`. -/
def cdxTextType (fs : List (String × JValue)) : Bool :=
  (pyGet fs "type").isStr "input_text" || (pyGet fs "type").isStr "output_text" ||
  (pyGet fs "type").isStr "text"

/-- `extract_msg_text(p)` (cli.py:470-471). -/
def cdxMsgText (pfs : List (String × JValue)) : Except Err String := do
  let elems ← pyIterElems (pyGetD pfs "content" (.arr []))
  let blocks := elems.filterMap fun b => match b with | .obj fs => some fs | _ => none
  let parts ← (blocks.filter fun fs => cdxTextType fs && (pyGet fs "text").truthy).mapM
    fun fs => do jStr (← pyIndex fs "text")
  pure (joinWith "\n" parts)

/-- `norm_args(p)` (cli.py:472-473). -/
def norm_args (pfs : List (String × JValue)) : Except Err JValue :=
  match pyGetD pfs "arguments" (.obj []) with
  | .str s => jsonLoads s
  | v => .ok v

/-- `[(i, e["payload"]) for i, e in enumerate(events) if e.get("type") ==
"response_item" and "payload" in e]` from index `i`. -/
def cdxItemsAux (i : Nat) : List JValue → Except Err (List (Nat × JValue))
  | [] => .ok []
  | e :: rest => do
      let fs ← asObj e
      if (pyGet fs "type").isStr "response_item" && (dictGet fs "payload").isSome then do
        let p ← pyIndex fs "payload"
        let r ← cdxItemsAux (i + 1) rest
        pure ((i, p) :: r)
      else cdxItemsAux (i + 1) rest

/-- `next((e["payload"] for e in events if e.get("type") == "session_meta"),
empty-dict)`. -/
def findMeta : List JValue → Except Err JValue
  | [] => .ok (.obj [])
  | e :: rest => do
      let fs ← asObj e
      if (pyGet fs "type").isStr "session_meta" then pyIndex fs "payload" else findMeta rest

/-- `p.get("role") not in ("developer", "system")`. -/
def roleNotDevSys (fs : List (String × JValue)) : Bool :=
  !((pyGet fs "role").isStr "developer" || (pyGet fs "role").isStr "system")

/-- The texts the cli.py:475-477 message filter extracts, in item order. -/
def cdxTexts : List (Nat × JValue) → Except Err (List String)
  | [] => .ok []
  | (_, p) :: rest => do
      let fs ← asObj p
      if (pyGet fs "type").isStr "message" && roleNotDevSys fs then do
        let t ← cdxMsgText fs
        let r ← cdxTexts rest
        pure (t :: r)
      else cdxTexts rest

/-- The cli.py:475-477 message comprehension. -/
def buildCdxMsgs (cid : String) (tss : List (Option TS)) :
    List (Nat × JValue) → Except Err (List MsgRow)
  | [] => .ok []
  | (i, p) :: rest => do
      let fs ← asObj p
      if (pyGet fs "type").isStr "message" && roleNotDevSys fs then do
        let t ← cdxMsgText fs
        if t != "" then do
          let rv ← pyIndex fs "role"
          let r ← buildCdxMsgs cid tss rest
          pure (⟨gen_id "codex" (cid ++ ":" ++ toString i), cid, rv, pyStrip t, none,
                 (tss.get? i).join, .null, .obj []⟩ :: r)
        else buildCdxMsgs cid tss rest
      else buildCdxMsgs cid tss rest

/-- The cli.py:480-483 `function_call` tool comprehension. -/
def buildCdxToolCalls (cid : String) (tss : List (Option TS)) :
    List (Nat × JValue) → Except Err (List ToolRow)
  | [] => .ok []
  | (i, p) :: rest => do
      let fs ← asObj p
      if (pyGet fs "type").isStr "function_call" then do
        let args ← norm_args fs
        if args.truthy then do
          let nm ← pyIndex fs "name"
          let r ← buildCdxToolCalls cid tss rest
          pure (⟨gen_id "codex" ("tool:" ++ cid ++ ":" ++ toString i),
                 gen_id "codex" (cid ++ ":" ++ toString i), nm, args, .obj [], "pending", .null,
                 (tss.get? i).join⟩ :: r)
        else buildCdxToolCalls cid tss rest
      else buildCdxToolCalls cid tss rest

/-- The cli.py:484-487 `function_call_output` tool comprehension. -/
def buildCdxToolOuts (cid : String) (tss : List (Option TS)) :
    List (Nat × JValue) → Except Err (List ToolRow)
  | [] => .ok []
  | (i, p) :: rest => do
      let fs ← asObj p
      let r ← buildCdxToolOuts cid tss rest
      if (pyGet fs "type").isStr "function_call_output" then
        pure (⟨gen_id "codex" ("toolout:" ++ cid ++ ":" ++ toString i),
               gen_id "codex" (cid ++ ":" ++ toString i), pyGet fs "call_id", .obj [],
               pyGetD fs "output" (.str ""), "complete", .null, (tss.get? i).join⟩ :: r)
      else pure r

/-- `" ".join(c) if isinstance(c, list) else c`, where a later `re.search`
on a non-string raises `TypeError`. -/
def cmdOf (cv : JValue) : Except Err String :=
  match cv with
  | .arr xs => do
      let parts ← xs.mapM jStr
      pure (joinWith " " parts)
  | .str s => pure s
  | _ => .error "TypeError: expected string or bytes-like object"

/-- The two shell-edit patterns applied to one command string
(cli.py:494-495): index 0 the redirect pattern, index 1 the sed/awk one. -/
def cdxEditsOfCmd (cid : String) (i : Nat) (ts : Option TS) (cmd : String) : List EditRow :=
  [(0, searchRedirect cmd.data), (1, searchSedAwk cmd.data)].filterMap fun jm =>
    match jm.2 with
    | some g => some ⟨gen_id "codex" ("edit:" ++ cid ++ ":" ++ toString i ++ ":" ++ toString jm.1),
                      gen_id "codex" (cid ++ ":" ++ toString i), .str (String.mk g), "shell",
                      .str cmd, ts⟩
    | none => none

/-- The cli.py:489-495 shell-edit comprehension. -/
def buildCdxEdits (cid : String) (tss : List (Option TS)) :
    List (Nat × JValue) → Except Err (List EditRow)
  | [] => .ok []
  | (i, p) :: rest => do
      let fs ← asObj p
      if (pyGet fs "type").isStr "function_call" && (pyGet fs "name").isStr "shell" then do
        let args ← norm_args fs
        if args.truthy then do
          let afs ← asObj args
          let cv := pyGet afs "command"
          if cv.truthy then do
            let cmd ← cmdOf cv
            if cmd != "" then do
              let r ← buildCdxEdits cid tss rest
              pure (cdxEditsOfCmd cid i ((tss.get? i).join) cmd ++ r)
            else buildCdxEdits cid tss rest
          else buildCdxEdits cid tss rest
        else buildCdxEdits cid tss rest
      else buildCdxEdits cid tss rest

/-- `parse_codex_session(jsonl)` (cli.py:461-502): `none` for an empty event
list or a session with no extractable message text. -/
def parse_codex_session (p : JsonlPath) (events : List JValue) :
    Except Err (Option CCSession) :=
  if events.isEmpty then .ok none else do
    let cid := gen_id "codex" p.full
    let timestamps ← ccTimestamps events
    let meta ← findMeta events
    let items ← cdxItemsAux 0 events
    let msgs ← buildCdxMsgs cid timestamps items
    if msgs.isEmpty then pure none else do
      let tools1 ← buildCdxToolCalls cid timestamps items
      let tools2 ← buildCdxToolOuts cid timestamps items
      let edits ← buildCdxEdits cid timestamps items
      let mfs ← asObj meta
      pure (some ⟨⟨cid, "codex", pyOr (pyGet mfs "cwd") (.str p.stem), timestamps.head?.join,
                  timestamps.getLast?.join, pyGetD mfs "model_provider" (.str "openai"),
                  pyGet mfs "cwd", .null, .null,
                  .obj [("cli_version", pyGet mfs "cli_version"), ("session_id", .str p.stem)]⟩,
                  msgs, tools1 ++ tools2, edits⟩)

/-- `parse_codex(codex_dir, files)` (cli.py:504-510) over the session files'
parsed event lists (filesystem discovery of the `sessions` directory is
outside the model). -/
def parse_codex (files : List (JsonlPath × List JValue)) : Except Err ParseResult := do
  let sessionsO ← files.mapM fun pe => parse_codex_session pe.1 pe.2
  let ss := sessionsO.filterMap id
  pure ⟨ss.map (·.conv), (ss.map (·.msgs)).flatten, (ss.map (·.tools)).flatten, [], [],
        (ss.map (·.edits)).flatten⟩

/-! ## Export-file normalizers (cli.py:365-407) -/

/-- An apostrophe (kept out of literals). -/
def pySQuote : String := String.mk [Char.ofNat 39]

mutual

/-- Python `repr()` of a parsed-JSON value (`repr`'s quote-switching on
strings that contain quotes is not modelled — no claim hashes such keys). -/
def pyRepr : JValue → String
  | .null => "None"
  | .bool true => "True"
  | .bool false => "False"
  | .num n => toString n
  | .str s => pySQuote ++ s ++ pySQuote
  | .arr xs => "[" ++ pyReprL xs ++ "]"
  | .obj fs => "\x7b" ++ pyReprF fs ++ "\x7d"

def pyReprL : List JValue → String
  | [] => ""
  | [x] => pyRepr x
  | x :: y :: xs => pyRepr x ++ ", " ++ pyReprL (y :: xs)

def pyReprF : List (String × JValue) → String
  | [] => ""
  | [kv] => pySQuote ++ kv.1 ++ pySQuote ++ ": " ++ pyRepr kv.2
  | kv :: y :: xs => pySQuote ++ kv.1 ++ pySQuote ++ ": " ++ pyRepr kv.2 ++ ", " ++ pyReprF (y :: xs)

end

/-- Python `str()` of a parsed-JSON value, as f-string interpolation applies it
(containers render their elements with `repr`). -/
def pyStr : JValue → String
  | .str s => s
  | v => pyRepr v

/-- The rows one ChatGPT export conversation object yields. -/
structure CGParts where
  conv : ConvRow
  msgs : List MsgRow
  tools : List ToolRow
  attachs : List AttachRow

/-- The per-part loop of cli.py:380-385 (`i` the `enumerate` index). -/
def cgParts (mid : String) (cid : String) (role : JValue) (ts : Option TS) (model : JValue)
    (meta : JValue) (i : Nat) : List JValue → List MsgRow × List AttachRow
  | [] => ([], [])
  | part :: rest =>
    let (ms, ats) := cgParts mid cid role ts model meta (i + 1) rest
    match part with
    | .obj pfs =>
      if (pyGet pfs "content_type").isStr "image_asset_pointer" ||
         (pyGet pfs "content_type").isStr "file" then
        (ms, ⟨gen_id "chatgpt" ("attach:" ++ mid ++ ":" ++ toString i), mid,
              pyGetD pfs "name" (.str ""), pyGet pfs "content_type", pyGet pfs "size",
              .null, pyGet pfs "asset_pointer", ts⟩ :: ats)
      else (ms, ats)
    | .str s =>
      if pyStrip s != "" then
        (⟨mid, cid, role, pyStrip s, none, ts, model, meta⟩ :: ms, ats)
      else (ms, ats)
    | _ => (ms, ats)

/-- The per-node loop of cli.py:373-385. -/
def cgNodes (cid : String) : List (String × JValue) →
    Except Err (List MsgRow × List ToolRow × List AttachRow)
  | [] => .ok ([], [], [])
  | (nid, node) :: rest => do
      let nfs ← asObj node
      let msgv := pyGet nfs "message"
      if !msgv.truthy then cgNodes cid rest else do
        let msg ← asObj msgv
        let mid := gen_id "chatgpt" (cid ++ ":" ++ nid)
        let afs ← asObj (pyGetD msg "author" (.obj []))
        let role := pyGetD afs "role" (.str "unknown")
        let ts := tsFromEpoch (pyGet msg "create_time")
        let metafs ← asObj (pyGetD msg "metadata" (.obj []))
        let model := pyGet metafs "model_slug"
        let tools ← if role.isStr "tool" || (pyGet metafs "invoked_plugin").truthy then do
            let ifs ← asObj (pyGetD metafs "invoked_plugin" (.obj []))
            pure [ToolRow.mk (gen_id "chatgpt" ("tool:" ++ mid)) mid (pyGetD ifs "namespace" role)
              (pyGetD metafs "args" (.obj [])) (pyGetD msg "content" (.obj [])) "complete" .null ts]
          else pure ([] : List ToolRow)
        let partsV ← if (pyGet msg "content").truthy then do
            let cfs2 ← asObj (pyGet msg "content")
            pure (pyGetD cfs2 "parts" (.arr []))
          else pure (JValue.arr [])
        let parts ← pyIterElems partsV
        let (ms, ats) := cgParts mid cid role ts model (.obj metafs) 0 parts
        let (rms, rts, rats) ← cgNodes cid rest
        pure (ms ++ rms, tools ++ rts, ats ++ rats)

/-- One conversation object of a ChatGPT export (cli.py:368-385). -/
def cgConv (c : JValue) : Except Err CGParts := do
  let cfs ← asObj c
  let cid := gen_id "chatgpt" (pyStr (pyGetD cfs "id" (.str "")))
  let gizmo := pyGet cfs "gizmo_id"
  let conv : ConvRow := ⟨cid, "chatgpt", pyGet cfs "title", tsFromEpoch (pyGet cfs "create_time"),
    tsFromEpoch (pyGet cfs "update_time"), pyGet cfs "default_model_slug", .null, .null, gizmo,
    if gizmo.truthy then .obj [("gizmo_id", gizmo)] else .obj []⟩
  let mfs ← asObj (pyGetD cfs "mapping" (.obj []))
  let (ms, ts, ats) ← cgNodes cid mfs
  pure ⟨conv, ms, ts, ats⟩

/-- `parse_chatgpt(path)` (cli.py:365-386) on the parsed export document's
conversation array (file and zip transport are outside the model). -/
def parse_chatgpt (data : List JValue) : Except Err ParseResult := do
  let parts ← data.mapM cgConv
  pure ⟨parts.map (·.conv), (parts.map (·.msgs)).flatten, (parts.map (·.tools)).flatten,
        (parts.map (·.attachs)).flatten, [], []⟩

/-- The rows one Claude export conversation object yields. -/
structure CLParts where
  conv : ConvRow
  msgs : List MsgRow
  attachs : List AttachRow

/-- `m["uuid"] if "uuid" in m else m["id"]` on a message dict. -/
def clMsgKey (mfs : List (String × JValue)) : Except Err JValue :=
  if (dictGet mfs "uuid").isSome then pyIndex mfs "uuid" else pyIndex mfs "id"

/-- The message comprehension of cli.py:396-399. -/
def clMsgs (cid : String) : List JValue → Except Err (List MsgRow)
  | [] => .ok []
  | m :: rest => do
      let mfs ← asObj m
      let ec ← extract_content (pyOr (pyGet mfs "text") (pyGetD mfs "content" (.str "")))
      if ec.text != "" then do
        let mk ← clMsgKey mfs
        let ts ← tsFromIso (pyGet mfs "created_at")
        let r ← clMsgs cid rest
        pure (⟨gen_id "claude" (cid ++ ":" ++ pyStr mk), cid, pyGetD mfs "sender" (.str "unknown"),
               ec.text, ec.thinking, ts, .null, .obj []⟩ :: r)
      else clMsgs cid rest

/-- The inner attachment loop of cli.py:400-404 for one message. -/
def clAttachsOf (cid : String) (mfs : List (String × JValue)) (i : Nat) :
    List JValue → Except Err (List AttachRow)
  | [] => .ok []
  | a :: rest => do
      let afs ← asObj a
      let mk ← clMsgKey mfs
      let mid := gen_id "claude" (cid ++ ":" ++ pyStr mk)
      let ts ← tsFromIso (pyGet mfs "created_at")
      let r ← clAttachsOf cid mfs (i + 1) rest
      pure (⟨gen_id "claude" ("attach:" ++ mid ++ ":" ++ toString i), mid, pyGet afs "file_name",
             pyGet afs "file_type", pyGet afs "file_size", .null, pyGet afs "url", ts⟩ :: r)

/-- The attachment comprehension of cli.py:400-404. -/
def clAttachs (cid : String) : List JValue → Except Err (List AttachRow)
  | [] => .ok []
  | m :: rest => do
      let mfs ← asObj m
      let els ← pyIterElems (pyGetD mfs "attachments" (.arr []))
      let here ← clAttachsOf cid mfs 0 els
      let r ← clAttachs cid rest
      pure (here ++ r)

/-- `parse_conv(c)` of cli.py:390-404. -/
def clConv (c : JValue) : Except Err CLParts := do
  let hasUuid ← pyContains "uuid" c
  let key ← if hasUuid then pyIndexJ c "uuid" else pyIndexJ c "id"
  let cid := gen_id "claude" (pyStr key)
  let cfs ← asObj c
  let ts1 ← tsFromIso (pyGet cfs "created_at")
  let ts2 ← tsFromIso (pyGet cfs "updated_at")
  let conv : ConvRow := ⟨cid, "claude", pyOr (pyGet cfs "name") (pyGet cfs "title"), ts1, ts2,
    pyGet cfs "model", .null, .null, .null, .obj []⟩
  let msgsData := pyGetD cfs "chat_messages" (.arr [])
  let els ← pyIterElems msgsData
  let msgs ← clMsgs cid els
  let attachs ← clAttachs cid els
  pure ⟨conv, msgs, attachs⟩

/-- `parse_claude(path)` (cli.py:388-407) on the parsed export document's
conversation array. -/
def parse_claude (data : List JValue) : Except Err ParseResult := do
  let parts ← data.mapM clConv
  pure ⟨parts.map (·.conv), (parts.map (·.msgs)).flatten, [], (parts.map (·.attachs)).flatten,
        [], []⟩

/-! ## Storage and the Merger (cli.py:512-526)

A DuckDB table with a `VARCHAR PRIMARY KEY` is, observably, a finite map from
key to row; `INSERT OR REPLACE` is insert-or-replace on that map. -/

/-- A keyed table. -/
abbrev Table (α : Type) := Finmap (fun _ : String => α)

/-- Sequential `INSERT OR REPLACE` of a batch of rows. -/
def applyRows {α : Type} (key : α → String) (t : Table α) (rows : List α) : Table α :=
  rows.foldl (fun acc x => acc.insert (key x) x) t

/-- `o` if it is `some`, else the fallback (a strict `orElse`). -/
def oGet {α : Type} : Option α → Option α → Option α
  | some x, _ => some x
  | none, fb => fb

/-- The last row of the batch carrying key `a`. -/
def lastWith {α : Type} (key : α → String) (a : String) : List α → Option α
  | [] => none
  | x :: rest => oGet (lastWith key a rest) (if key x = a then some x else none)

/-- The six tables of the schema (cli.py:56-74). -/
structure Storage where
  conversations : Table ConvRow
  messages : Table MsgRow
  tool_calls : Table ToolRow
  attachments : Table AttachRow
  artifacts : Table ArtifactRow
  file_edits : Table EditRow

/-- A freshly initialized database. -/
def emptyStorage : Storage := ⟨∅, ∅, ∅, ∅, ∅, ∅⟩

/-- The number of rows of a keyed table. -/
def rowCount {α : Type} (t : Table α) : Nat := t.keys.card

/-- `upsert(conn, r)` (cli.py:512-526): the new storage state and the returned
`(convs, msgs, tools, attachs, edits, new_convs, updated)` tuple.  The
new/updated sets are computed against the pre-state, exactly as the `SELECT`s
run before the `INSERT OR REPLACE` loops. -/
def upsert (s : Storage) (r : ParseResult) :
    Storage × (Nat × Nat × Nat × Nat × Nat × Nat × Nat) :=
  let cids := r.convs.map (·.id)
  let mids := r.msgs.map (·.id)
  let existing := cids.filter fun c => (s.conversations.lookup c).isSome
  let existingMsgs := mids.filter fun m => (s.messages.lookup m).isSome
  let newConvs : Finset String := cids.toFinset \ existing.toFinset
  let newMsgs : Finset String := mids.toFinset \ existingMsgs.toFinset
  let updated : Finset String :=
    ((r.msgs.filter fun m => m.id ∈ newMsgs).map (·.conversation_id)).toFinset \ newConvs
  (⟨applyRows ConvRow.id s.conversations r.convs, applyRows MsgRow.id s.messages r.msgs,
    applyRows ToolRow.id s.tool_calls r.tools, applyRows AttachRow.id s.attachments r.attachs,
    applyRows ArtifactRow.id s.artifacts r.artifacts, applyRows EditRow.id s.file_edits r.edits⟩,
   (r.convs.length, r.msgs.length, r.tools.length, r.attachs.length, r.edits.length,
    newConvs.card, updated.card))

/-- The storage state after one merge. -/
def upsertState (s : Storage) (r : ParseResult) : Storage := (upsert s r).1

/-! ## Change detector / sync planner (cli.py:746-755, 812-816) -/

/-- A scheduled session-log job: the file subset to re-parse and the new
per-file watermark map `(files: mt)`. -/
structure SessionJob where
  files : List String
  newState : List (String × Nat)

/-- `prev.get(str(p), 0)`. -/
def lookupMt (prev : List (String × Nat)) (p : String) : Nat := (prev.lookup p).getD 0

/-- The session-source branch of `plan_local` (cli.py:748-752): `files` pairs
each matched path with its current mtime, `prev` is the stored watermark map. -/
def plan_local_session (files : List (String × Nat)) (prev : List (String × Nat)) :
    Option SessionJob :=
  let chg := files.filter fun pm => lookupMt prev pm.1 < pm.2
  if chg.isEmpty then none else some ⟨chg.map (·.1), files⟩

/-- `latest_mtime` (cli.py:53-54): maximum matched mtime, default 0. -/
def latest_mtime (mts : List Nat) : Nat := mts.foldl max 0

/-- The export-style branch of `plan_local` (cli.py:753-755): `some` the new
watermark when a job is scheduled. -/
def plan_local_export (mts : List Nat) (stored : Nat) : Option Nat :=
  let m := latest_mtime mts
  if m ≤ stored then none else some m

/-- `plan_import(path)` (cli.py:812-816): directory paths take the newest
matched mtime, file paths their own. -/
def plan_import (isDir : Bool) (dirMts : List Nat) (fileMt : Nat) (stored : Nat) : Option Nat :=
  let m := if isDir then latest_mtime dirMts else fileMt
  if m ≤ stored then none else some m

/-! ## Executor (`do_sync`'s job loop, cli.py:832-846) -/

/-- What the planner hands the executor about one job: its echo label and the
`("section", key) := value` watermark update to persist on success. -/
structure Job where
  label : String
  stateKey : String × String
  stateVal : JValue

/-- The persisted watermark state document (section × key → value). -/
abbrev WmState := Finmap (fun _ : String × String => JValue)

/-- `set_state(section, key, val)` (cli.py:743-745).  Python skips the write
when the stored value already equals `v` (only the dirty flag differs), which
leaves the same mapping; the model inserts unconditionally. -/
def set_state (wm : WmState) (k : String × String) (v : JValue) : WmState :=
  wm.insert k v

/-- One line of sync output. -/
inductive Report where
  | failed (label : String) (msg : Err)
  | merged (label : String) (counts : Nat × Nat × Nat × Nat × Nat × Nat × Nat)

/-- The cli.py:835-844 `as_completed` loop over jobs and their outcomes (in
completion order): a raised job is echoed with its label and skipped before
`upsert`/`set_state`; a returned job is merged and its watermark recorded
unconditionally. -/
def runJobs : List (Job × Except Err ParseResult) → Storage → WmState →
    Storage × WmState × List Report
  | [], s, wm => (s, wm, [])
  | (j, .error e) :: rest, s, wm =>
      let (s', wm', reps) := runJobs rest s wm
      (s', wm', .failed j.label e :: reps)
  | (j, .ok r) :: rest, s, wm =>
      let (s1, counts) := upsert s r
      let wm1 := set_state wm j.stateKey j.stateVal
      let (s', wm', reps) := runJobs rest s1 wm1
      (s', wm', .merged j.label counts :: reps)

/-! ## Concrete fixtures used by witnesses -/

/-- A conversation row for a deterministically keyed local session. -/
def sampleConvRow : ConvRow :=
  ⟨gen_id "claude-code" "/home/u/.claude/projects/p/s1.jsonl", "claude-code", .str "p (s1)",
   none, none, .str "claude", .null, .null, .null, .obj []⟩

/-- Six message rows keyed `gen_id("claude-code", cid + ":" + i)` as the
session normalizer derives them. -/
def sampleMsgRows : List MsgRow :=
  (List.range 6).map fun i =>
    ⟨gen_id "claude-code" (sampleConvRow.id ++ ":" ++ toString i), sampleConvRow.id, .str "user",
     "m" ++ toString i, none, none, .null, .obj []⟩

/-- A session file path fixture. -/
def samplePath : JsonlPath := ⟨"/tmp/s.jsonl", "proj", "s"⟩

/-- A claude-code session whose only message extracts empty text. -/
def sampleEmptyCcEvents : List JValue :=
  [.obj [("type", .str "user"), ("message", .obj [("content", .str "")])]]

/-- A codex session whose only message extracts empty text. -/
def sampleEmptyCdxEvents : List JValue :=
  [.obj [("type", .str "response_item"),
         ("payload", .obj [("type", .str "message"), ("role", .str "user"),
                           ("content", .arr [])])]]

/-- The claim's Write invocation with input file_path `/a.py`. -/
def sampleWriteTool : ToolEntry :=
  .use (.str "Write") (.obj [("file_path", .str "/a.py"), ("content", .str "print(1)")]) .null

/-- A ChatGPT export document with one conversation whose only part is
whitespace (the message is dropped, the conversation kept). -/
def sampleCgDoc : List JValue :=
  [.obj [("id", .str "c1"), ("title", .str "T"),
         ("mapping", .obj [("n1", .obj [("message", .obj
           [("author", .obj [("role", .str "user")]),
            ("content", .obj [("parts", .arr [.str "  "])])])])])]]

/-- A Claude export document with one conversation whose only message has
empty text (dropped), leaving the conversation with zero messages. -/
def sampleClDoc : List JValue :=
  [.obj [("uuid", .str "c2"),
         ("chat_messages", .arr [.obj [("uuid", .str "m1"), ("text", .str "")]])]]

/-- The texts the codex message filter extracts for a whole session. -/
def cdxSessionTexts (events : List JValue) : Except Err (List String) := do
  let items ← cdxItemsAux 0 events
  cdxTexts items

/-- The parsed `sampleCgDoc` (total by construction). -/
def sampleCgParsed : ParseResult := (parse_chatgpt sampleCgDoc).toOption.getD {}

/-- The parsed `sampleClDoc` (total by construction). -/
def sampleClParsed : ParseResult := (parse_claude sampleClDoc).toOption.getD {}

/-! ## Lemmas about batched insert-or-replace -/

theorem oGet_assoc {α : Type} (p q r : Option α) : oGet (oGet p q) r = oGet p (oGet q r) := by
  cases p <;> rfl

theorem oGet_self {α : Type} (p q : Option α) : oGet p (oGet p q) = oGet p q := by
  cases p <;> rfl

theorem lookup_applyRows {α : Type} (key : α → String) (rows : List α) (t : Table α)
    (a : String) :
    (applyRows key t rows).lookup a = oGet (lastWith key a rows) (t.lookup a) := by
  induction rows generalizing t with
  | nil => rfl
  | cons x rest ih =>
      show (applyRows key (t.insert (key x) x) rest).lookup a = _
      rw [ih, lastWith, oGet_assoc]
      by_cases h : key x = a
      · subst h
        simp [Finmap.lookup_insert, oGet]
      · rw [Finmap.lookup_insert_of_ne t (fun hc => h hc.symm)]
        simp [h, oGet]

theorem lastWith_isSome {α : Type} (key : α → String) (a : String) (rows : List α) :
    (lastWith key a rows).isSome = true ↔ a ∈ rows.map key := by
  induction rows with
  | nil => simp [lastWith]
  | cons x rest ih =>
      by_cases h : key x = a
      · simp only [lastWith, List.map_cons, List.mem_cons]
        cases hl : lastWith key a rest <;> simp [oGet, h, hl]
      · have hne : ¬a = key x := fun hc => h hc.symm
        simp only [lastWith, List.map_cons, List.mem_cons]
        cases hl : lastWith key a rest <;>
          simp [oGet, if_neg h, hne, ← ih, hl]

theorem applyRows_self {α : Type} (key : α → String) (t : Table α) (rows : List α) :
    applyRows key (applyRows key t rows) rows = applyRows key t rows :=
  Finmap.ext_lookup fun a => by
    rw [lookup_applyRows, lookup_applyRows, oGet_self]

theorem mem_applyRows {α : Type} (key : α → String) (t : Table α) (rows : List α)
    (a : String) : a ∈ applyRows key t rows ↔ a ∈ rows.map key ∨ a ∈ t := by
  rw [← Finmap.lookup_isSome, lookup_applyRows, ← Finmap.lookup_isSome, ← lastWith_isSome key]
  cases lastWith key a rows <;> simp [oGet]

theorem keys_applyRows {α : Type} (key : α → String) (t : Table α) (rows : List α) :
    (applyRows key t rows).keys = (rows.map key).toFinset ∪ t.keys := by
  ext a
  rw [Finmap.mem_keys, mem_applyRows, Finset.mem_union, List.mem_toFinset, Finmap.mem_keys]

/-! ## Hex digest shape lemmas -/

theorem wordHex_length (w : Nat) : (wordHex w).length = 8 := rfl

theorem sha256HexChars_length (bytes : List Nat) : (sha256HexChars bytes).length = 64 := by
  simp [sha256HexChars, wordHex]

/-- The sixteen lower-case hex digits. -/
def hexDigits : List Char := "0123456789abcdef".data

theorem nibChar_mem_hexDigits (n : Nat) : nibChar n ∈ hexDigits := by
  rcases Nat.lt_or_ge n 16 with h | h
  · interval_cases n <;> decide
  · have : nibChar n = '0' := List.getD_eq_default _ _ (by simpa using h)
    rw [this]; decide

theorem wordHex_mem_hexDigits (w : Nat) (c : Char) (hc : c ∈ wordHex w) : c ∈ hexDigits := by
  simp only [wordHex, List.mem_cons, List.not_mem_nil, or_false] at hc
  rcases hc with h | h | h | h | h | h | h | h <;> (subst h; exact nibChar_mem_hexDigits _)

theorem sha256HexChars_mem_hexDigits (bytes : List Nat) (c : Char)
    (hc : c ∈ sha256HexChars bytes) : c ∈ hexDigits := by
  simp only [sha256HexChars, List.mem_append] at hc
  rcases hc with ((((((h | h) | h) | h) | h) | h) | h) | h <;> exact wordHex_mem_hexDigits _ _ h

/-- SHA-256 sanity anchor: the FIPS 180 test vector for `"abc"`. -/
theorem sha256_abc_vector :
    String.mk (sha256HexChars (utf8Encode "abc")) =
      "ba7816bf8f01cfea414140de5dae2223b00361a396177a9cb410ff61f20015ad" := by decide

/-- C3: `gen_id` yields the first 16 of the 64 hexadecimal characters of
SHA-256 of `"{source}:{key}"`; it is referentially transparent, and
`gen_id "claude" "x" ≠ gen_id "chatgpt" "x"`. -/
theorem gen_id_spec :
    (∀ s k : String,
      gen_id s k = String.mk ((sha256HexChars (utf8Encode (s ++ ":" ++ k))).take 16) ∧
      (sha256HexChars (utf8Encode (s ++ ":" ++ k))).length = 64) ∧
    (∀ s k : String, (gen_id s k).length = 16 ∧ ∀ c ∈ (gen_id s k).data, c ∈ hexDigits) ∧
    (∀ s k s' k' : String, s = s' → k = k' → gen_id s k = gen_id s' k') ∧
    gen_id "claude" "x" ≠ gen_id "chatgpt" "x" := by
  refine ⟨fun s k => ⟨rfl, sha256HexChars_length _⟩, fun s k => ⟨?_, ?_⟩, ?_, ?_⟩
  · show ((sha256HexChars (utf8Encode (s ++ ":" ++ k))).take 16).length = 16
    rw [List.length_take, sha256HexChars_length]
    omega
  · intro c hc
    exact sha256HexChars_mem_hexDigits _ c (List.mem_of_mem_take hc)
  · intro s k s' k' hs hk
    rw [hs, hk]
  · decide

/-- C3 witness: the determinism conjunct applied at `("claude", "x")`, and the
16-character shape there. -/
theorem gen_id_spec_witness :
    gen_id "claude" "x" = gen_id "claude" "x" ∧ (gen_id "claude" "x").length = 16 :=
  ⟨gen_id_spec.2.2.1 "claude" "x" "claude" "x" rfl rfl, (gen_id_spec.2.1 "claude" "x").1⟩

/-- C1 (code bug): `extract_content` does not degrade a nameless `tool_use`
block to an empty value — the bare `b["name"]` index at cli.py:127 raises
`KeyError: 'name'`, contradicting the spec's "must degrade to empty values on
missing fields, never fail". -/
theorem extract_content_nameless_tool_use_raises :
    extract_content (.arr [.obj [("type", .str "tool_use")]]) = .error "KeyError: name" := rfl

/-- C5: the content-union extractor on the two reference inputs:
a thinking/text block list gives reasoning `"T"` and text `"X"`; the plain
string `"plain"` gives text `"plain"` and null reasoning. -/
theorem extract_content_reference_inputs :
    extract_content (.arr [.obj [("type", .str "thinking"), ("thinking", .str "T")],
                           .obj [("type", .str "text"), ("text", .str "X")]]) =
      .ok ⟨"X", some "T", [], []⟩ ∧
    extract_content (.str "plain") = .ok ⟨"plain", none, [], []⟩ := ⟨rfl, rfl⟩

/-- The state component of `upsert`, unfolded. -/
theorem upsertState_eq (s : Storage) (r : ParseResult) :
    upsertState s r =
      ⟨applyRows ConvRow.id s.conversations r.convs, applyRows MsgRow.id s.messages r.msgs,
       applyRows ToolRow.id s.tool_calls r.tools, applyRows AttachRow.id s.attachments r.attachs,
       applyRows ArtifactRow.id s.artifacts r.artifacts,
       applyRows EditRow.id s.file_edits r.edits⟩ := rfl

/-- C2: merging the identical `ParseResult` twice is idempotent — the second
merge leaves every stored row unchanged, and the row counts of all six tables
after the second merge equal the counts after the first application. -/
theorem merge_idempotent (s : Storage) (r : ParseResult) :
    upsertState (upsertState s r) r = upsertState s r ∧
    rowCount (upsertState (upsertState s r) r).conversations =
      rowCount (upsertState s r).conversations ∧
    rowCount (upsertState (upsertState s r) r).messages = rowCount (upsertState s r).messages ∧
    rowCount (upsertState (upsertState s r) r).tool_calls =
      rowCount (upsertState s r).tool_calls ∧
    rowCount (upsertState (upsertState s r) r).attachments =
      rowCount (upsertState s r).attachments ∧
    rowCount (upsertState (upsertState s r) r).artifacts =
      rowCount (upsertState s r).artifacts ∧
    rowCount (upsertState (upsertState s r) r).file_edits =
      rowCount (upsertState s r).file_edits := by
  have h : upsertState (upsertState s r) r = upsertState s r := by
    rw [upsertState_eq s r, upsertState_eq]
    simp only [applyRows_self]
  exact ⟨h, by rw [h], by rw [h], by rw [h], by rw [h], by rw [h], by rw [h]⟩

/-- C4: a conversation first merged with 3 messages and then re-merged under
the same conversation id with 6 deterministically keyed messages (the first 3
unchanged) leaves exactly 1 conversation row and exactly 6 message rows —
duplicate ids are impossible, the id sets being keys of the tables. -/
theorem merge_continuation (c : ConvRow) (ms : List MsgRow) (hlen : ms.length = 6)
    (hids : (ms.map MsgRow.id).Nodup) (_hconv : ∀ m ∈ ms, m.conversation_id = c.id) :
    rowCount (upsertState (upsertState emptyStorage ⟨[c], ms.take 3, [], [], [], []⟩)
      ⟨[c], ms, [], [], [], []⟩).conversations = 1 ∧
    rowCount (upsertState (upsertState emptyStorage ⟨[c], ms.take 3, [], [], [], []⟩)
      ⟨[c], ms, [], [], [], []⟩).messages = 6 := by
  constructor
  · show rowCount (applyRows ConvRow.id (applyRows ConvRow.id emptyStorage.conversations [c])
      [c]) = 1
    rw [rowCount, keys_applyRows, keys_applyRows]
    show (({c.id} : Finset String) ∪ ({c.id} ∪ (∅ : Table ConvRow).keys)).card = 1
    simp
  · show rowCount (applyRows MsgRow.id (applyRows MsgRow.id emptyStorage.messages (ms.take 3))
      ms) = 6
    rw [rowCount, keys_applyRows, keys_applyRows]
    have hsub : ((ms.take 3).map MsgRow.id).toFinset ∪ (∅ : Table MsgRow).keys ⊆
        (ms.map MsgRow.id).toFinset := by
      intro a ha
      rcases Finset.mem_union.mp ha with ha | ha
      · rw [List.mem_toFinset] at ha ⊢
        rw [List.map_take] at ha
        exact List.take_subset _ _ ha
      · simp [Finmap.keys_empty] at ha
    show ((ms.map MsgRow.id).toFinset ∪
      (((ms.take 3).map MsgRow.id).toFinset ∪ (∅ : Table MsgRow).keys)).card = 6
    rw [Finset.union_eq_left.mpr hsub, List.toFinset_card_of_nodup hids, List.length_map, hlen]

/-- C4 witness: the concrete 3-then-6 merge with `gen_id`-derived ids. -/
theorem merge_continuation_witness :
    sampleMsgRows.length = 6 ∧
    rowCount (upsertState (upsertState emptyStorage ⟨[sampleConvRow], sampleMsgRows.take 3,
      [], [], [], []⟩) ⟨[sampleConvRow], sampleMsgRows, [], [], [], []⟩).conversations = 1 ∧
    rowCount (upsertState (upsertState emptyStorage ⟨[sampleConvRow], sampleMsgRows.take 3,
      [], [], [], []⟩) ⟨[sampleConvRow], sampleMsgRows, [], [], [], []⟩).messages = 6 := by
  have h := merge_continuation sampleConvRow sampleMsgRows (by decide) (by decide)
    (by decide)
  exact ⟨by decide, h.1, h.2⟩

/-! ## Planner gating (C8) -/

theorem foldl_max_gt (l : List Nat) (a s : Nat) :
    s < l.foldl max a ↔ s < a ∨ ∃ x ∈ l, s < x := by
  induction l generalizing a with
  | nil => simp
  | cons y ys ih =>
      rw [List.foldl_cons, ih, lt_max_iff]
      simp only [List.mem_cons]
      constructor
      · rintro ((h | h) | ⟨x, hx, hlt⟩)
        · exact Or.inl h
        · exact Or.inr ⟨y, Or.inl rfl, h⟩
        · exact Or.inr ⟨x, Or.inr hx, hlt⟩
      · rintro (h | ⟨x, (rfl | hx), hlt⟩)
        · exact Or.inl (Or.inl h)
        · exact Or.inl (Or.inr hlt)
        · exact Or.inr ⟨x, hx, hlt⟩

/-- C8: a file-backed source schedules a job iff some matched file's current
mtime strictly exceeds its stored watermark; a scheduled session-log job
re-parses exactly the advanced file subset (and records the full current
mtime map as the new watermark). -/
theorem planner_gating :
    (∀ (files prev : List (String × Nat)),
      (plan_local_session files prev).isSome ↔ ∃ pm ∈ files, lookupMt prev pm.1 < pm.2) ∧
    (∀ (files prev : List (String × Nat)) (job : SessionJob),
      plan_local_session files prev = some job →
        job.files = (files.filter fun pm => lookupMt prev pm.1 < pm.2).map Prod.fst ∧
        job.newState = files) ∧
    (∀ (mts : List Nat) (stored : Nat),
      (plan_local_export mts stored).isSome ↔ ∃ mt ∈ mts, stored < mt) ∧
    (∀ (dirMts : List Nat) (fileMt stored : Nat),
      ((plan_import true dirMts fileMt stored).isSome ↔ ∃ mt ∈ dirMts, stored < mt) ∧
      ((plan_import false dirMts fileMt stored).isSome ↔ stored < fileMt)) := by
  have hexp : ∀ (mts : List Nat) (stored : Nat),
      ((if latest_mtime mts ≤ stored then none else some (latest_mtime mts)).isSome
        ↔ ∃ mt ∈ mts, stored < mt) := by
    intro mts stored
    split
    · rename_i h
      simp only [latest_mtime] at h
      simp only [Option.isSome_none, Bool.false_eq_true, false_iff]
      rintro ⟨x, hx, hlt⟩
      exact absurd ((foldl_max_gt mts 0 stored).mpr (Or.inr ⟨x, hx, hlt⟩)) (by omega)
    · rename_i h
      simp only [latest_mtime] at h
      simp only [Option.isSome_some, true_iff]
      rcases (foldl_max_gt mts 0 stored).mp (by omega) with h0 | hx
      · omega
      · exact hx
  refine ⟨fun files prev => ?_, fun files prev job h => ?_, fun mts stored => hexp mts stored,
    fun dirMts fileMt stored => ⟨hexp dirMts stored, ?_⟩⟩
  · simp only [plan_local_session]
    split
    · rename_i h
      rw [List.isEmpty_iff, List.filter_eq_nil_iff] at h
      simp only [Option.isSome_none, Bool.false_eq_true, false_iff]
      rintro ⟨pm, hpm, hlt⟩
      exact absurd (decide_eq_true hlt) (by simpa using h pm hpm)
    · rename_i h
      rw [List.isEmpty_iff] at h
      rcases List.exists_mem_of_ne_nil _ h with ⟨pm, hpm⟩
      rw [List.mem_filter] at hpm
      simp only [Option.isSome_some, true_iff]
      exact ⟨pm, hpm.1, of_decide_eq_true hpm.2⟩
  · simp only [plan_local_session] at h
    split at h
    · exact absurd h (by simp)
    · cases h
      exact ⟨rfl, rfl⟩
  · simp only [plan_import, Bool.false_eq_true, if_false]
    split
    · rename_i h
      simp only [Option.isSome_none, Bool.false_eq_true, false_iff]
      omega
    · rename_i h
      simp only [Option.isSome_some, true_iff]
      omega

/-- C8 witness: one file at mtime 5 with no stored watermark schedules a job
re-parsing exactly that file; a watermark at or above the mtime yields none. -/
theorem planner_gating_witness :
    (SessionJob.mk ["a"] [("a", 5)]).files =
      (([("a", 5)] : List (String × Nat)).filter fun pm => lookupMt [] pm.1 < pm.2).map
        Prod.fst ∧
    (SessionJob.mk ["a"] [("a", 5)]).newState = [("a", 5)] :=
  planner_gating.2.1 [("a", 5)] [] ⟨["a"], [("a", 5)]⟩ rfl

/-! ## Executor behaviour (C9) -/

theorem runJobs_append (l1 l2 : List (Job × Except Err ParseResult)) (s : Storage)
    (wm : WmState) :
    runJobs (l1 ++ l2) s wm =
      ((runJobs l2 (runJobs l1 s wm).1 (runJobs l1 s wm).2.1).1,
       (runJobs l2 (runJobs l1 s wm).1 (runJobs l1 s wm).2.1).2.1,
       (runJobs l1 s wm).2.2 ++ (runJobs l2 (runJobs l1 s wm).1 (runJobs l1 s wm).2.1).2.2) := by
  induction l1 generalizing s wm with
  | nil => simp [runJobs]
  | cons x rest ih =>
      obtain ⟨j, res⟩ := x
      cases res with
      | error e => simp [runJobs, ih]
      | ok r => simp [runJobs, ih]

/-- C9: a job whose execution raises leaves storage and every watermark
exactly as a cycle without it would, and is reported under its own label; a
job that returns is merged and its watermark entry recorded unconditionally —
also when the merge changed nothing (`r` is arbitrary, including batches
upserting zero new rows). -/
theorem executor_isolation_persistence :
    (∀ (pre post : List (Job × Except Err ParseResult)) (j : Job) (e : Err) (s : Storage)
       (wm : WmState),
      (runJobs (pre ++ (j, .error e) :: post) s wm).1 = (runJobs (pre ++ post) s wm).1 ∧
      (runJobs (pre ++ (j, .error e) :: post) s wm).2.1 = (runJobs (pre ++ post) s wm).2.1 ∧
      Report.failed j.label e ∈ (runJobs (pre ++ (j, .error e) :: post) s wm).2.2) ∧
    (∀ (jobs : List (Job × Except Err ParseResult)) (j : Job) (r : ParseResult) (s : Storage)
       (wm : WmState),
      (runJobs (jobs ++ [(j, .ok r)]) s wm).2.1.lookup j.stateKey = some j.stateVal ∧
      (runJobs (jobs ++ [(j, .ok r)]) s wm).1 = upsertState (runJobs jobs s wm).1 r ∧
      (runJobs (jobs ++ [(j, .ok r)]) s wm).2.2 =
        (runJobs jobs s wm).2.2 ++
          [Report.merged j.label (upsert (runJobs jobs s wm).1 r).2]) := by
  constructor
  · intro pre post j e s wm
    rw [runJobs_append pre ((j, Except.error e) :: post), runJobs_append pre post]
    refine ⟨rfl, rfl, ?_⟩
    simp [runJobs]
  · intro jobs j r s wm
    rw [runJobs_append jobs [(j, Except.ok r)]]
    refine ⟨?_, rfl, rfl⟩
    show (set_state (runJobs jobs s wm).2.1 j.stateKey j.stateVal).lookup j.stateKey =
      some j.stateVal
    exact Finmap.lookup_insert _

/-! ## Export normalizers archive every conversation (C10) -/

theorem mapM_ok_length {α β : Type} (f : α → Except Err β) :
    ∀ (l : List α) (ys : List β), l.mapM f = .ok ys → ys.length = l.length := by
  intro l
  induction l with
  | nil =>
      intro ys h
      rw [List.mapM_nil] at h
      cases h
      rfl
  | cons x xs ih =>
      intro ys h
      rw [List.mapM_cons] at h
      cases hfx : f x with
      | error e => rw [hfx] at h; exact absurd h (by simp [Bind.bind, Except.bind])
      | ok y =>
          rw [hfx] at h
          cases hrest : xs.mapM f with
          | error e => rw [hrest] at h; exact absurd h (by simp [Bind.bind, Except.bind])
          | ok ys' =>
              rw [hrest] at h
              simp only [Bind.bind, Except.bind, pure, Except.pure] at h
              cases h
              simp [ih ys' hrest]

/-- C10: the export-file normalizers emit exactly one conversation row per
conversation object of the document — message filtering never drops the
conversation itself, so (unlike the session-log empty-session filter) an
export conversation with zero surviving messages is still archived. -/
theorem export_conversation_always_archived :
    (∀ (data : List JValue) (r : ParseResult), parse_chatgpt data = .ok r →
      r.convs.length = data.length) ∧
    (∀ (data : List JValue) (r : ParseResult), parse_claude data = .ok r →
      r.convs.length = data.length) := by
  constructor
  · intro data r h
    simp only [parse_chatgpt] at h
    cases hp : data.mapM cgConv with
    | error e => rw [hp] at h; exact absurd h (by simp [Bind.bind, Except.bind])
    | ok parts =>
        rw [hp] at h
        simp only [Bind.bind, Except.bind, pure, Except.pure] at h
        cases h
        simp [mapM_ok_length cgConv data parts hp]
  · intro data r h
    simp only [parse_claude] at h
    cases hp : data.mapM clConv with
    | error e => rw [hp] at h; exact absurd h (by simp [Bind.bind, Except.bind])
    | ok parts =>
        rw [hp] at h
        simp only [Bind.bind, Except.bind, pure, Except.pure] at h
        cases h
        simp [mapM_ok_length clConv data parts hp]

/-- C10 witness: one-conversation documents whose every message is dropped
for empty text still parse to exactly one conversation row and zero message
rows. -/
theorem export_archival_witness :
    parse_chatgpt sampleCgDoc = .ok sampleCgParsed ∧
    sampleCgParsed.convs.length = sampleCgDoc.length ∧ sampleCgParsed.msgs.length = 0 ∧
    parse_claude sampleClDoc = .ok sampleClParsed ∧
    sampleClParsed.convs.length = sampleClDoc.length ∧ sampleClParsed.msgs.length = 0 := by
  have h1 : parse_chatgpt sampleCgDoc = .ok sampleCgParsed := by rfl
  have h2 : parse_claude sampleClDoc = .ok sampleClParsed := by rfl
  exact ⟨h1, export_conversation_always_archived.1 sampleCgDoc sampleCgParsed h1, by rfl,
         h2, export_conversation_always_archived.2 sampleClDoc sampleClParsed h2, by rfl⟩

/-! ## The empty-session filter (C6) -/

theorem except_bind_ok {α β : Type} (a : α) (f : α → Except Err β) :
    (Except.ok a >>= f) = f a := rfl

theorem except_bind_error {α β : Type} (e : Err) (f : α → Except Err β) :
    ((Except.error e : Except Err α) >>= f) = .error e := rfl

theorem except_ok_ne_error {α : Type} (a : α) (e : Err) :
    (Except.ok a : Except Err α) ≠ .error e := by
  intro h
  cases h

theorem buildMsgs_of_empty_texts (cid : String) :
    ∀ (l : List (Nat × JValue)) (idx : Nat) (ts : List String),
      (l.mapM fun ie => ccText ie.2) = .ok ts → (∀ t ∈ ts, t = "") →
      buildMsgs cid idx l = .ok [] := by
  intro l
  induction l with
  | nil => intro idx ts _ _; rfl
  | cons ie rest ih =>
      intro idx ts h hall
      obtain ⟨i, e⟩ := ie
      rw [List.mapM_cons] at h
      cases hce : ccText e with
      | error er =>
          rw [hce, except_bind_error] at h
          exact absurd h.symm (except_ok_ne_error ts er)
      | ok t =>
          rw [hce, except_bind_ok] at h
          cases hrest : rest.mapM (fun ie => ccText ie.2) with
          | error er =>
              rw [hrest, except_bind_error] at h
              exact absurd h.symm (except_ok_ne_error ts er)
          | ok ts' =>
              rw [hrest, except_bind_ok] at h
              cases h
              have ht : t = "" := hall t (List.mem_cons_self t ts')
              have hrest' : ∀ u ∈ ts', u = "" := fun u hu =>
                hall u (List.mem_cons_of_mem t hu)
              show (do
                let t' ← ccText e
                if t' != "" then do
                  let m ← make_msg cid idx e
                  let r ← buildMsgs cid (idx + 1) rest
                  pure (m :: r)
                else buildMsgs cid (idx + 1) rest) = .ok []
              rw [hce, except_bind_ok, ht]
              show buildMsgs cid (idx + 1) rest = .ok []
              exact ih (idx + 1) ts' hrest hrest'

theorem buildCdxMsgs_of_empty_texts (cid : String) (tss : List (Option TS)) :
    ∀ (l : List (Nat × JValue)) (ts : List String),
      cdxTexts l = .ok ts → (∀ t ∈ ts, t = "") →
      buildCdxMsgs cid tss l = .ok [] := by
  intro l
  induction l with
  | nil => intro ts _ _; rfl
  | cons ip rest ih =>
      intro ts h hall
      obtain ⟨i, p⟩ := ip
      rw [cdxTexts] at h
      cases hfs : asObj p with
      | error er =>
          rw [hfs, except_bind_error] at h
          exact absurd h.symm (except_ok_ne_error ts er)
      | ok fs =>
          rw [hfs, except_bind_ok] at h
          rw [buildCdxMsgs, hfs, except_bind_ok]
          by_cases hc : ((pyGet fs "type").isStr "message" && roleNotDevSys fs) = true
          · rw [if_pos hc] at h ⊢
            cases hmt : cdxMsgText fs with
            | error er =>
                rw [hmt, except_bind_error] at h
                exact absurd h.symm (except_ok_ne_error ts er)
            | ok t =>
                rw [hmt, except_bind_ok] at h
                rw [except_bind_ok]
                cases hrest : cdxTexts rest with
                | error er =>
                    rw [hrest, except_bind_error] at h
                    exact absurd h.symm (except_ok_ne_error ts er)
                | ok ts' =>
                    rw [hrest, except_bind_ok] at h
                    cases h
                    have ht : t = "" := hall t (List.mem_cons_self t ts')
                    rw [ht]
                    show buildCdxMsgs cid tss rest = .ok []
                    exact ih ts' hrest fun u hu => hall u (List.mem_cons_of_mem t hu)
          · rw [if_neg hc] at h ⊢
            exact ih ts h hall

theorem parse_cc_skip (p : JsonlPath) (evs : List JValue)
    (h : parse_claude_code_session p evs = .ok none) (l1 l2 : List (JsonlPath × List JValue)) :
    parse_claude_code (l1 ++ (p, evs) :: l2) = parse_claude_code (l1 ++ l2) := by
  simp only [parse_claude_code]
  rw [List.mapM_append, List.mapM_append, List.mapM_cons, h]
  cases h1 : l1.mapM (fun pe => parse_claude_code_session pe.1 pe.2) with
  | error e => simp only [except_bind_error]
  | ok xs =>
      simp only [except_bind_ok]
      cases h2 : l2.mapM (fun pe => parse_claude_code_session pe.1 pe.2) with
      | error e => simp only [except_bind_error]
      | ok ys =>
          simp only [except_bind_ok, pure, Except.pure, except_bind_ok]
          simp [List.filterMap_append, List.filterMap_cons]

theorem parse_cdx_skip (p : JsonlPath) (evs : List JValue)
    (h : parse_codex_session p evs = .ok none) (l1 l2 : List (JsonlPath × List JValue)) :
    parse_codex (l1 ++ (p, evs) :: l2) = parse_codex (l1 ++ l2) := by
  simp only [parse_codex]
  rw [List.mapM_append, List.mapM_append, List.mapM_cons, h]
  cases h1 : l1.mapM (fun pe => parse_codex_session pe.1 pe.2) with
  | error e => simp only [except_bind_error]
  | ok xs =>
      simp only [except_bind_ok]
      cases h2 : l2.mapM (fun pe => parse_codex_session pe.1 pe.2) with
      | error e => simp only [except_bind_error]
      | ok ys =>
          simp only [except_bind_ok, pure, Except.pure, except_bind_ok]
          simp [List.filterMap_append, List.filterMap_cons]

/-- C6: a session-log file (claude-code or codex) whose events yield zero
non-empty extracted message texts is dropped entirely: the session parser
returns `none`, and the normalizer's result over any file list is the same as
if the file were absent — zero conversations and no child rows contributed. -/
theorem empty_session_dropped :
    (∀ (p : JsonlPath) (events : List JValue) (res : Option CCSession) (ts : List String),
      parse_claude_code_session p events = .ok res → ccSessionTexts events = .ok ts →
      (∀ t ∈ ts, t = "") → res = none) ∧
    (∀ (p : JsonlPath) (events : List JValue) (res : Option CCSession) (ts : List String)
       (l1 l2 : List (JsonlPath × List JValue)),
      parse_claude_code_session p events = .ok res → ccSessionTexts events = .ok ts →
      (∀ t ∈ ts, t = "") →
      parse_claude_code (l1 ++ (p, events) :: l2) = parse_claude_code (l1 ++ l2)) ∧
    (∀ (p : JsonlPath) (events : List JValue) (res : Option CCSession) (ts : List String),
      parse_codex_session p events = .ok res → cdxSessionTexts events = .ok ts →
      (∀ t ∈ ts, t = "") → res = none) ∧
    (∀ (p : JsonlPath) (events : List JValue) (res : Option CCSession) (ts : List String)
       (l1 l2 : List (JsonlPath × List JValue)),
      parse_codex_session p events = .ok res → cdxSessionTexts events = .ok ts →
      (∀ t ∈ ts, t = "") →
      parse_codex (l1 ++ (p, events) :: l2) = parse_codex (l1 ++ l2)) := by
  have hcc : ∀ (p : JsonlPath) (events : List JValue) (res : Option CCSession)
      (ts : List String), parse_claude_code_session p events = .ok res →
      ccSessionTexts events = .ok ts → (∀ t ∈ ts, t = "") → res = none := by
    intro p events res ts hp hts hall
    by_cases he : events.isEmpty = true
    · rw [parse_claude_code_session, if_pos he] at hp
      injection hp with h
      exact h.symm
    · rw [parse_claude_code_session, if_neg he] at hp
      cases h1 : ccTimestamps events with
      | error e =>
          simp only [h1, except_bind_error] at hp
          exact absurd hp.symm (except_ok_ne_error res e)
      | ok tss =>
          simp only [h1, except_bind_ok] at hp
          cases h2 : findSystem events with
          | error e =>
          simp only [h2, except_bind_error] at hp
          exact absurd hp.symm (except_ok_ne_error res e)
          | ok sys =>
              simp only [h2, except_bind_ok] at hp
              cases h3 : msgEventsAux 0 events with
              | error e =>
          simp only [h3, except_bind_error] at hp
          exact absurd hp.symm (except_ok_ne_error res e)
              | ok mes =>
                  simp only [h3, except_bind_ok] at hp
                  simp only [ccSessionTexts, h3, except_bind_ok] at hts
                  have hb := buildMsgs_of_empty_texts (gen_id "claude-code" p.full) mes 0 ts
                    hts hall
                  simp only [hb, except_bind_ok] at hp
                  simp only [List.isEmpty_nil, if_true, pure, Except.pure] at hp
                  injection hp with h
                  exact h.symm
  have hcdx : ∀ (p : JsonlPath) (events : List JValue) (res : Option CCSession)
      (ts : List String), parse_codex_session p events = .ok res →
      cdxSessionTexts events = .ok ts → (∀ t ∈ ts, t = "") → res = none := by
    intro p events res ts hp hts hall
    by_cases he : events.isEmpty = true
    · rw [parse_codex_session, if_pos he] at hp
      injection hp with h
      exact h.symm
    · rw [parse_codex_session, if_neg he] at hp
      cases h1 : ccTimestamps events with
      | error e =>
          simp only [h1, except_bind_error] at hp
          exact absurd hp.symm (except_ok_ne_error res e)
      | ok tss =>
          simp only [h1, except_bind_ok] at hp
          cases h2 : findMeta events with
          | error e =>
          simp only [h2, except_bind_error] at hp
          exact absurd hp.symm (except_ok_ne_error res e)
          | ok meta =>
              simp only [h2, except_bind_ok] at hp
              cases h3 : cdxItemsAux 0 events with
              | error e =>
          simp only [h3, except_bind_error] at hp
          exact absurd hp.symm (except_ok_ne_error res e)
              | ok items =>
                  simp only [h3, except_bind_ok] at hp
                  simp only [cdxSessionTexts, h3, except_bind_ok] at hts
                  have hb := buildCdxMsgs_of_empty_texts (gen_id "codex" p.full) tss items ts
                    hts hall
                  simp only [hb, except_bind_ok] at hp
                  simp only [List.isEmpty_nil, if_true, pure, Except.pure] at hp
                  injection hp with h
                  exact h.symm
  refine ⟨hcc, ?_, hcdx, ?_⟩
  · intro p events res ts l1 l2 hp hts hall
    have hres := hcc p events res ts hp hts hall
    subst hres
    exact parse_cc_skip p events hp l1 l2
  · intro p events res ts l1 l2 hp hts hall
    have hres := hcdx p events res ts hp hts hall
    subst hres
    exact parse_cdx_skip p events hp l1 l2

/-- C6 witness: one-event sessions whose only message text extracts empty are
dropped by both session normalizers and contribute nothing. -/
theorem empty_session_dropped_witness :
    parse_claude_code_session samplePath sampleEmptyCcEvents = .ok none ∧
    parse_claude_code ([] ++ (samplePath, sampleEmptyCcEvents) :: []) =
      parse_claude_code ([] ++ []) ∧
    parse_codex_session samplePath sampleEmptyCdxEvents = .ok none ∧
    parse_codex ([] ++ (samplePath, sampleEmptyCdxEvents) :: []) = parse_codex ([] ++ []) := by
  have h1 : parse_claude_code_session samplePath sampleEmptyCcEvents = .ok none := by rfl
  have h2 : parse_codex_session samplePath sampleEmptyCdxEvents = .ok none := by rfl
  have ht1 : ccSessionTexts sampleEmptyCcEvents = .ok [""] := by rfl
  have ht2 : cdxSessionTexts sampleEmptyCdxEvents = .ok [""] := by rfl
  have hall : ∀ t ∈ ([""] : List String), t = "" := by decide
  exact ⟨h1,
    empty_session_dropped.2.1 samplePath sampleEmptyCcEvents none [""] [] [] h1 ht1 hall,
    h2,
    empty_session_dropped.2.2.2 samplePath sampleEmptyCdxEvents none [""] [] [] h2 ht2 hall⟩

/-! ## Tool-to-edit projection (C7) -/

theorem ccEditsGo_mem (cid : String) (idx : Nat) (mid : String) (ts : Option TS) :
    ∀ (tools : List ToolEntry) (j0 : Nat) (es : List EditRow),
      ccEditsGo cid idx mid ts j0 tools = .ok es →
      ∀ (j : Nat) (n : String) (fs : List (String × JValue)) (tid : JValue),
        tools.get? j = some (.use (.str n) (.obj fs) tid) →
        (n = "Write" ∨ n = "Edit" ∨ n = "MultiEdit") →
        (pyGet fs "file_path").truthy = true →
        (⟨gen_id "claude-code"
            ("edit:" ++ cid ++ ":" ++ toString idx ++ ":" ++ toString (j0 + j)), mid,
          pyGet fs "file_path", pyLower n,
          pyOr (pyGet fs "content") (pyGetD fs "new_string" (.str "")), ts⟩ : EditRow) ∈ es := by
  intro tools
  induction tools with
  | nil =>
      intro j0 es _ j n fs tid hj _ _
      simp at hj
  | cons t rest ih =>
      intro j0 es h j n fs tid hj hn hfp
      cases j with
      | zero =>
          rw [List.get?_cons_zero] at hj
          injection hj with hj
          subst hj
          have hb : (n == "Write" || n == "Edit" || n == "MultiEdit") = true := by
            rcases hn with rfl | rfl | rfl <;> rfl
          have het : editToolName (ToolEntry.use (.str n) (.obj fs) tid) = some n := by
            simp [editToolName, hb]
          rw [ccEditsGo, het] at h
          simp only [ToolEntry.inputD, asObj, except_bind_ok] at h
          rw [if_pos hfp] at h
          cases hrec : ccEditsGo cid idx mid ts (j0 + 1) rest with
          | error e =>
              rw [hrec, except_bind_error] at h
              exact absurd h.symm (except_ok_ne_error es e)
          | ok r =>
              rw [hrec, except_bind_ok] at h
              injection h with h
              subst h
              simp only [Nat.add_zero]
              exact List.mem_cons_self _ _
      | succ j' =>
          rw [List.get?_cons_succ] at hj
          have hidx : j0 + 1 + j' = j0 + (j' + 1) := by omega
          rw [ccEditsGo] at h
          split at h
          case h_2 =>
              have := ih (j0 + 1) es h j' n fs tid hj hn hfp
              rwa [hidx] at this
          case h_1 =>
              cases hin : asObj t.inputD with
              | error e =>
                  rw [hin, except_bind_error] at h
                  exact absurd h.symm (except_ok_ne_error es e)
              | ok inFs =>
                  rw [hin, except_bind_ok] at h
                  by_cases htr : (pyGet inFs "file_path").truthy = true
                  · rw [if_pos htr] at h
                    cases hrec : ccEditsGo cid idx mid ts (j0 + 1) rest with
                    | error e =>
                        rw [hrec, except_bind_error] at h
                        exact absurd h.symm (except_ok_ne_error es e)
                    | ok r =>
                        rw [hrec, except_bind_ok] at h
                        injection h with h
                        subst h
                        have := ih (j0 + 1) r hrec j' n fs tid hj hn hfp
                        rw [hidx] at this
                        exact List.mem_cons_of_mem _ this
                  · rw [if_neg htr] at h
                    have := ih (j0 + 1) es h j' n fs tid hj hn hfp
                    rwa [hidx] at this

theorem cdxEditsOfCmd_shell (cid : String) (i : Nat) (ts : Option TS) (cmd : String)
    (h : (searchRedirect cmd.data).isSome = true ∨ (searchSedAwk cmd.data).isSome = true) :
    cdxEditsOfCmd cid i ts cmd ≠ [] ∧
    ∀ e ∈ cdxEditsOfCmd cid i ts cmd, e.edit_type = "shell" := by
  unfold cdxEditsOfCmd
  cases hA : searchRedirect cmd.data <;> cases hB : searchSedAwk cmd.data <;>
    simp [hA, hB, List.filterMap] at h ⊢

/-- C7: every tool invocation named Write/Edit/MultiEdit whose input carries a
truthy `file_path` is projected into a FileEdit row whose edit kind is the
lowercased tool name and whose path is that `file_path`; a codex shell command
matching either the redirect or the sed/awk pattern projects into FileEdit
rows of kind `"shell"`; and the reference Write invocation with input
`file_path: "/a.py", content: "print(1)"` yields exactly one FileEdit of kind
`"write"` at `/a.py`. -/
theorem tool_to_edit_projection :
    (∀ (cid : String) (idx : Nat) (mid : String) (ts : Option TS) (tools : List ToolEntry)
       (es : List EditRow), ccEditsOfTools cid idx mid ts tools = .ok es →
      ∀ (j : Nat) (n : String) (fs : List (String × JValue)) (tid : JValue),
        tools.get? j = some (.use (.str n) (.obj fs) tid) →
        (n = "Write" ∨ n = "Edit" ∨ n = "MultiEdit") →
        (pyGet fs "file_path").truthy = true →
        (⟨gen_id "claude-code" ("edit:" ++ cid ++ ":" ++ toString idx ++ ":" ++ toString j),
          mid, pyGet fs "file_path", pyLower n,
          pyOr (pyGet fs "content") (pyGetD fs "new_string" (.str "")), ts⟩ : EditRow) ∈ es) ∧
    (∀ (cid : String) (i : Nat) (ts : Option TS) (cmd : String),
      (searchRedirect cmd.data).isSome = true ∨ (searchSedAwk cmd.data).isSome = true →
      cdxEditsOfCmd cid i ts cmd ≠ [] ∧
      ∀ e ∈ cdxEditsOfCmd cid i ts cmd, e.edit_type = "shell") ∧
    ccEditsOfTools "c0" 0 "m0" none [sampleWriteTool] =
      .ok [⟨gen_id "claude-code" "edit:c0:0:0", "m0", .str "/a.py", "write", .str "print(1)",
            none⟩] := by
  refine ⟨?_, cdxEditsOfCmd_shell, rfl⟩
  intro cid idx mid ts tools es h j n fs tid hj hn hfp
  have := ccEditsGo_mem cid idx mid ts tools 0 es h j n fs tid hj hn hfp
  rwa [Nat.zero_add] at this

/-- C7 witness: the reference Write invocation's row is a member of the
projected edits, and `echo hi > out.txt` matches the redirect pattern so its
shell invocation projects a non-empty all-"shell" edit list. -/
theorem tool_to_edit_projection_witness :
    (⟨gen_id "claude-code" ("edit:" ++ "c0" ++ ":" ++ toString 0 ++ ":" ++ toString 0), "m0",
      pyGet [("file_path", .str "/a.py"), ("content", .str "print(1)")] "file_path",
      pyLower "Write",
      pyOr (pyGet [("file_path", .str "/a.py"), ("content", .str "print(1)")] "content")
        (pyGetD [("file_path", .str "/a.py"), ("content", .str "print(1)")] "new_string"
          (.str "")), none⟩ : EditRow) ∈
      [(⟨gen_id "claude-code" "edit:c0:0:0", "m0", .str "/a.py", "write", .str "print(1)",
         none⟩ : EditRow)] ∧
    cdxEditsOfCmd "c0" 0 none "echo hi > out.txt" ≠ [] := by
  constructor
  · exact tool_to_edit_projection.1 "c0" 0 "m0" none [sampleWriteTool]
      [⟨gen_id "claude-code" "edit:c0:0:0", "m0", .str "/a.py", "write", .str "print(1)",
        none⟩] rfl 0 "Write" [("file_path", .str "/a.py"), ("content", .str "print(1)")]
      .null rfl (Or.inl rfl) rfl
  · exact (tool_to_edit_projection.2.1 "c0" 0 none "echo hi > out.txt"
      (Or.inl (by decide))).1
